import Mathlib

/-!
# Aura storefront backend: catalog and order ledger

A shallow embedding of the Express route handlers of `project-backend`
(`routes/orders.js`, `routes/products.js`) together with the Mongoose schema
`models/Product.js`, followed by theorems about them.

Conventions of the embedding.

* A JavaScript `Number` is a finite double, held as the rational it stands
  for, and `NaN` is `none` (`JsNumber = Option ℚ`).  The operators `+` and `*`
  round their exact result to the nearest double, ties to even (`toDouble`);
  the infinities and the sign of zero are outside the numbers of the model.
* A MongoDB collection is the list of its documents in insertion order; a
  lookup by `_id` returns the first document carrying that id.  An `ObjectId`
  is an id as Mongoose has cast it; `castObjectId` is the cast of a request
  parameter, and the handlers whose name ends in `Route` take the parameter
  as the request carries it.
* The upload area lives in a file system given by the list of the paths that
  exist and the list of the paths whose removal raises an exception.
* A handler maps the state before the request to the reply (if any) and the
  state after it.  The `authenticateToken` middleware in front of the admin
  routes is a gate outside the handlers and is not part of them.
-/

namespace Aura

/-! ## JavaScript values -/

/-- A JavaScript number: `none` is `NaN`, `some q` the number `q`. -/
abbrev JsNumber := Option ℚ

/-- The number of binary digits of `n`, with `fuel` at least that number. -/
def bitLength : Nat → Nat → Nat
  | 0, _ => 0
  | fuel + 1, n => if n = 0 then 0 else bitLength fuel (n / 2) + 1

/-- The largest `e` with `2 ^ e ≤ n / d`, for positive `n` and `d`. -/
def floorLog2 (n d : Nat) : ℤ :=
  let k : ℤ := (bitLength n n : ℤ) - (bitLength d d : ℤ)
  if d * 2 ^ k.toNat ≤ n * 2 ^ (-k).toNat then k else k - 1

/-- The quotient `n / d` rounded to the nearest integer, a tie going to the
even one. -/
def roundHalfEven (n d : Nat) : Nat :=
  let m := n / d
  let r := n % d
  if 2 * r < d then m
  else if d < 2 * r then m + 1
  else if m % 2 = 0 then m else m + 1

/-- The double nearest to a rational (IEEE-754 binary64, round to nearest, ties
to even): 53 significant bits, and steps of `2 ^ (-1074)` below `2 ^ (-1022)`.
The range is not bounded above: there is no overflow to `Infinity`. -/
def toDouble (q : ℚ) : ℚ :=
  let n := q.num.natAbs
  let d := q.den
  let e := max (floorLog2 n d - 52) (-1074)
  let m := roundHalfEven (n * 2 ^ (-e).toNat) (d * 2 ^ e.toNat)
  ((q.num.sign * (m * 2 ^ e.toNat : Nat) : ℤ) : ℚ) / ((2 ^ (-e).toNat : Nat) : ℚ)

/-- The JavaScript `+` on numbers. -/
def jsAdd (a b : JsNumber) : JsNumber :=
  match a, b with
  | some x, some y => some (toDouble (x + y))
  | _, _ => none

/-- The JavaScript `*` of a number with a request field that may be missing
(`undefined` converts to `NaN`). -/
def jsMul (a : ℚ) (b : Option ℚ) : JsNumber :=
  match b with
  | some y => some (toDouble (a * y))
  | none => none

/-- A value found in a JSON request body. -/
inductive JsValue where
  | undefined
  | null
  | bool (b : Bool)
  | number (n : ℚ)
  | string (s : String)
  | object
  deriving DecidableEq, Repr

/-- The test `xs.includes(v)` for an array of strings: strict equality, so only
a string can be included. -/
def includes (xs : List String) (v : JsValue) : Bool :=
  match v with
  | .string s => xs.contains s
  | _ => false

/-- The string a value passes on once `includes` has accepted it. -/
def JsValue.asString (v : JsValue) : String :=
  match v with
  | .string s => s
  | _ => ""

/-! ## Documents -/

/-- An id as Mongoose has cast it. -/
abbrev ObjectId := String

/-- A hexadecimal digit. -/
def isHexDigit (c : Char) : Bool :=
  c.isDigit || (decide ('a' ≤ c) && decide (c ≤ 'f')) || (decide ('A' ≤ c) && decide (c ≤ 'F'))

/-- The cast Mongoose applies to a request parameter that stands for an `_id`:
a string of 24 hexadecimal digits is the id they spell, in lower case; for any
other string the cast throws (`none`). -/
def castObjectId (raw : String) : Option ObjectId :=
  if raw.data.length = 24 ∧ raw.data.all isHexDigit = true then
    some (String.mk (raw.data.map Char.toLower))
  else none

/-- A document of the `Product` collection (`models/Product.js`). -/
structure Product where
  _id : ObjectId
  name : String
  category : String
  price : ℚ
  description : String
  rating : ℚ
  reviews : ℚ
  images : List String
  createdAt : Nat
  updatedAt : Nat
  deriving DecidableEq, Repr

/-- An element of `items` of an order: what `router.post('/')` pushes. -/
structure OrderItem where
  productId : ObjectId
  quantity : Option ℚ
  price : ℚ
  deriving DecidableEq, Repr

/-- A document of the `Order` collection. -/
structure Order where
  _id : ObjectId
  fullName : Option String
  phone : Option String
  address : Option String
  size : Option String
  items : List OrderItem
  total : JsNumber
  status : String
  createdAt : Nat
  deriving DecidableEq, Repr

/-- Modelled from the spec: the Order schema (`models/Order.js` is required by
`routes/orders.js` but is not among the sources).  It supplies the default of
`status` and the validators that `save()` runs. -/
structure OrderSchema where
  statusDefault : String
  validate : Order → Bool

/-- The five statuses: `validStatuses` of `router.patch('/:id/status')`. -/
def validStatuses : List String :=
  ["pending", "confirmed", "shipped", "delivered", "cancelled"]

/-- Modelled from the spec: the Order schema of the data model: `status` is one
of the five statuses and starts as `pending`, every item has a quantity of at
least one, and `total` is a number. -/
def specOrderSchema : OrderSchema where
  statusDefault := "pending"
  validate := fun o =>
    o.items.all (fun i => match i.quantity with
      | some q => decide (1 ≤ q)
      | none => false)
    && o.total.isSome
    && validStatuses.contains o.status

/-! ## File system -/

/-- A normalised absolute path, as its list of segments. -/
abbrev Path := List String

/-- The part of the file system the handlers touch. -/
structure FileSystem where
  files : List Path
  locked : List Path
  deriving DecidableEq, Repr

/-- The call `fs.existsSync`. -/
def FileSystem.existsSync (fs : FileSystem) (p : Path) : Bool :=
  fs.files.contains p

/-- The file system after a successful `fs.unlinkSync`. -/
def FileSystem.remove (fs : FileSystem) (p : Path) : FileSystem :=
  { fs with files := fs.files.filter (fun q => q ≠ p) }

/-- The loop `forEach(p => { if (fs.existsSync(p)) fs.unlinkSync(p) })`: the
file system it leaves, and whether an `unlinkSync` threw (which ends the loop). -/
def unlinkEach (fs : FileSystem) : List Path → FileSystem × Bool
  | [] => (fs, false)
  | p :: ps =>
    if fs.existsSync p then
      if fs.locked.contains p then (fs, true)
      else unlinkEach (fs.remove p) ps
    else unlinkEach fs ps

/-- Splits a string at every `/`. -/
def splitSlash : List Char → List (List Char)
  | [] => [[]]
  | c :: cs =>
    if c = '/' then [] :: splitSlash cs
    else
      match splitSlash cs with
      | [] => [[c]]
      | seg :: rest => (c :: seg) :: rest

/-- One step of POSIX path normalisation on an absolute path. -/
def normStep (acc : Path) (seg : String) : Path :=
  if seg = "" ∨ seg = "." then acc
  else if seg = ".." then acc.dropLast
  else acc ++ [seg]

/-- The call `path.join(base, rel)` for an absolute, normalised `base`. -/
def pathJoin (base : Path) (rel : String) : Path :=
  ((splitSlash rel.data).map String.mk).foldl normStep base

/-! ## State -/

/-- The state of the server: the two collections, the file system, and the
directory `__dirname` of the route modules. -/
structure State where
  products : List Product
  orders : List Order
  fs : FileSystem
  dirname : Path
  deriving DecidableEq, Repr

/-- The directory `uploadDir = path.join(__dirname, '..', 'uploads')`. -/
def uploadDir (s : State) : Path :=
  pathJoin (pathJoin s.dirname "..") "uploads"

/-- The call `Product.findById`. -/
def Product.findById (products : List Product) (id : ObjectId) : Option Product :=
  products.find? (fun p => p._id = id)

/-- The call `Order.findById`. -/
def Order.findById (orders : List Order) (id : ObjectId) : Option Order :=
  orders.find? (fun o => o._id = id)

/-! ## Replies -/

/-- What a caught exception carries in `error.message`. -/
inductive Failure where
  | validation (paths : List String)
  | unlink
  | notIterable
  | cast
  deriving DecidableEq, Repr

/-- The `name` and `price` that `populate('items.productId', 'name price')`
puts in place of a product id; `none` when the product no longer exists. -/
abbrev Populated := List (Option (ObjectId × String × ℚ))

/-- The JSON body of a reply. -/
inductive Payload where
  | product (p : Product)
  | order (o : Order)
  | populatedOrder (o : Order) (refs : Populated)
  | message (m : String)
  | error (e : Failure)
  deriving DecidableEq, Repr

/-- A reply: `res.status(status).json(payload)`. -/
structure Response where
  status : Nat
  payload : Payload
  deriving DecidableEq, Repr

/-! ## Order ledger (`routes/orders.js`) -/

/-- An element of `req.body.items`. -/
structure LineRequest where
  productId : ObjectId
  quantity : Option ℚ
  deriving DecidableEq, Repr

/-- The body of `POST /api/orders`, restricted to the paths of the Order
schema (the document constructor drops every other field). -/
structure OrderBody where
  fullName : Option String
  phone : Option String
  address : Option String
  size : Option String
  items : Option (List LineRequest)
  total : Option ℚ
  status : Option String
  deriving DecidableEq, Repr

/-- The loop of `router.post('/')` over `req.body.items`, started with the
accumulators `items` and `total`: the id of the first product that is not
found, or the accumulators at the end. -/
def collectItems (products : List Product) :
    List LineRequest → List OrderItem → JsNumber → Except ObjectId (List OrderItem × JsNumber)
  | [], items, total => .ok (items, total)
  | item :: rest, items, total =>
    match Product.findById products item.productId with
    | none => .error item.productId
    | some product =>
      collectItems products rest
        (items ++ [{ productId := product._id, quantity := item.quantity, price := product.price }])
        (jsAdd total (jsMul product.price item.quantity))

/-- The document `new Order({ ...req.body, items, total })`. -/
def newOrder (schema : OrderSchema) (newId : ObjectId) (now : Nat) (body : OrderBody)
    (items : List OrderItem) (total : JsNumber) : Order where
  _id := newId
  fullName := body.fullName
  phone := body.phone
  address := body.address
  size := body.size
  items := items
  total := total
  status := body.status.getD schema.statusDefault
  createdAt := now

/-- The handler `router.post('/')` of `routes/orders.js`. -/
def createOrder (schema : OrderSchema) (s : State) (newId : ObjectId) (now : Nat)
    (body : OrderBody) : Response × State :=
  match body.items with
  | none => (⟨400, .error .notIterable⟩, s)
  | some lines =>
    match collectItems s.products lines [] (some 0) with
    | .error pid => (⟨400, .message ("Product " ++ pid ++ " not found")⟩, s)
    | .ok (items, total) =>
      let order := newOrder schema newId now body items total
      if schema.validate order then
        (⟨201, .order order⟩, { s with orders := s.orders ++ [order] })
      else
        (⟨400, .error (.validation ["order"])⟩, s)

/-- The stored documents after `Order.findByIdAndUpdate(id, { status })`. -/
def setStatus (id : ObjectId) (status : String) : List Order → List Order
  | [] => []
  | o :: os =>
    if o._id = id then { o with status := status } :: os
    else o :: setStatus id status os

/-- The result of `populate('items.productId', 'name price')` for an order. -/
def populate (products : List Product) (o : Order) : Populated :=
  o.items.map (fun i => (Product.findById products i.productId).map
    (fun p => (p._id, p.name, p.price)))

/-- The handler `router.patch('/:id/status')` of `routes/orders.js`, on the id
as cast (for the request parameter see `updateStatusRoute`). -/
def updateStatus (s : State) (id : ObjectId) (status : JsValue) : Response × State :=
  if !(includes validStatuses status) then
    (⟨400, .message "Invalid status"⟩, s)
  else
    match Order.findById s.orders id with
    | none => (⟨404, .message "Order not found"⟩, s)
    | some o =>
      let order := { o with status := status.asString }
      (⟨200, .populatedOrder order (populate s.products order)⟩,
        { s with orders := setStatus id status.asString s.orders })

/-- The handler `router.get('/')` of `routes/orders.js`, before the sort by
`createdAt`: every stored order with its populated product references. -/
def listOrders (s : State) : List (Order × Populated) :=
  s.orders.map (fun o => (o, populate s.products o))

/-! ## Product schema (`models/Product.js`) -/

/-- The characters `String.prototype.trim` strips. -/
def isJsWhitespace (c : Char) : Bool :=
  c.val ∈ [0x09, 0x0A, 0x0B, 0x0C, 0x0D, 0x20, 0xA0, 0x1680, 0x2028, 0x2029,
    0x202F, 0x205F, 0x3000, 0xFEFF]
  || (0x2000 ≤ c.val && c.val ≤ 0x200A)

/-- The setter `trim: true` of the schema. -/
def jsTrim (s : String) : String :=
  String.mk ((s.data.dropWhile isJsWhitespace).reverse.dropWhile isJsWhitespace).reverse

/-- The `enum` of the path `category`. -/
def categories : List String :=
  ["New Arrivals", "Wardrobe Staples", "Statement Pieces", "Streetwear", "Evening Luxe"]

/-- Path `name`: `required`, after `trim`. -/
def nameValid (v : Option String) : Bool :=
  match v with
  | some s => jsTrim s != ""
  | none => false

/-- Path `category`: `required`, `enum`. -/
def categoryValid (v : Option String) : Bool :=
  match v with
  | some s => categories.contains s
  | none => false

/-- Path `price`: a number (`NaN` does not cast), `required`, `min: 0`. -/
def priceValid (v : JsNumber) : Bool :=
  match v with
  | some q => decide (0 ≤ q)
  | none => false

/-- Path `description`: `required`, after `trim`. -/
def descriptionValid (v : Option String) : Bool :=
  match v with
  | some s => jsTrim s != ""
  | none => false

/-- Path `images`: an array whose every element is `required`; the array
itself carries no validator, so the empty array passes. -/
def imagesValid (v : List String) : Bool :=
  v.all (fun img => img != "")

/-! ## Product catalog (`routes/products.js`) -/

/-- An element of `req.files` as the handlers read it. -/
structure UploadedFile where
  filename : String
  deriving DecidableEq, Repr

/-- The field `req.body.images`: one string or an array of strings. -/
inductive BodyImages where
  | one (url : String)
  | many (urls : List String)
  deriving DecidableEq, Repr

/-- The body of a product request.  `price` holds the value of
`parseFloat(req.body.price)` when the field is supplied; `readBody` gives the
body that stands for a request with the price as text. -/
structure ProductBody where
  name : Option String
  category : Option String
  price : Option JsNumber
  description : Option String
  images : Option BodyImages
  deriving DecidableEq, Repr

/-- A request as the product handlers see it, after `upload.array('images', 10)`:
`files` is `none` when the request is not multipart (`req.files` undefined);
the blob of each uploaded file is already in `uploadDir`. -/
structure ProductRequest where
  files : Option (List UploadedFile)
  body : ProductBody
  deriving DecidableEq, Repr

/-- The references `req.files.map(file => '/uploads/' + file.filename)`. -/
def uploadUrls (files : List UploadedFile) : List String :=
  files.map (fun file => "/uploads/" ++ file.filename)

/-- The paths `path.join(uploadDir, file.filename)` of the uploaded files. -/
def uploadPaths (s : State) (files : List UploadedFile) : List Path :=
  files.map (fun file => pathJoin (uploadDir s) file.filename)

/-- The test `imgPath.startsWith('/uploads/')`. -/
def isLocalUpload (imgPath : String) : Bool :=
  "/uploads/".data.isPrefixOf imgPath.data

/-- The paths `path.join(__dirname, '..', imgPath)` of the images that are
local uploads. -/
def localImagePaths (s : State) (images : List String) : List Path :=
  (images.filter isLocalUpload).map (fun imgPath => pathJoin (pathJoin s.dirname "..") imgPath)

/-- The `catch` block of `router.post('/')` and of `router.patch('/:id')`:
removes the uploaded files, then answers 400 with `error.message`.  An
exception of `unlinkSync` leaves the block, and no reply is sent. -/
def cleanupAndFail (s : State) (files : Option (List UploadedFile)) (e : Failure) :
    Option Response × State :=
  match files with
  | none => (some ⟨400, .error e⟩, s)
  | some fl =>
    let r := unlinkEach s.fs (uploadPaths s fl)
    if r.2 then (none, { s with fs := r.1 })
    else (some ⟨400, .error e⟩, { s with fs := r.1 })

/-- The image list of `router.post('/')`: `none` stands for the early return
"At least one image is required". -/
def createImageUrls (req : ProductRequest) : Option (List String) :=
  match req.files with
  | some files => some (uploadUrls files)
  | none =>
    match req.body.images with
    | some (.many urls) => some urls
    | some (.one url) => if url != "" then some [url] else none
    | none => none

/-- The paths that fail validation when `new Product(productData).save()` runs. -/
def createErrors (body : ProductBody) (imageUrls : List String) : List String :=
  (if nameValid body.name then [] else ["name"])
  ++ (if categoryValid body.category then [] else ["category"])
  ++ (if priceValid body.price.join then [] else ["price"])
  ++ (if descriptionValid body.description then [] else ["description"])
  ++ (if imagesValid imageUrls then [] else ["images"])

/-- The handler `router.post('/')` of `routes/products.js`. -/
def createProduct (s : State) (newId : ObjectId) (now : Nat) (req : ProductRequest) :
    Option Response × State :=
  match createImageUrls req with
  | none => (some ⟨400, .message "At least one image is required"⟩, s)
  | some imageUrls =>
    let errors := createErrors req.body imageUrls
    if errors.isEmpty then
      let product : Product :=
        { _id := newId
          name := jsTrim (req.body.name.getD "")
          category := req.body.category.getD ""
          price := req.body.price.join.getD 0
          description := jsTrim (req.body.description.getD "")
          rating := 0
          reviews := 0
          images := imageUrls
          createdAt := now
          updatedAt := now }
      (some ⟨201, .product product⟩, { s with products := s.products ++ [product] })
    else
      cleanupAndFail s req.files (.validation errors)

/-- The object `updateData` of `router.patch('/:id')`. -/
structure UpdateData where
  name : Option String
  category : Option String
  price : Option JsNumber
  description : Option String
  images : Option (List String)
  deriving DecidableEq, Repr

/-- The field `updateData.images`. -/
def updateImages (req : ProductRequest) : Option (List String) :=
  match req.files with
  | some files => some (uploadUrls files)
  | none =>
    match req.body.images with
    | some (.many urls) => some urls
    | some (.one url) => some [url]
    | none => none

/-- The object `updateData` built from a request. -/
def updateDataOf (req : ProductRequest) : UpdateData where
  name := req.body.name
  category := req.body.category
  price := req.body.price
  description := req.body.description
  images := updateImages req

/-- The paths that fail when `findByIdAndUpdate` casts and validates
`updateData` (`runValidators: true`): only the supplied paths are checked. -/
def updateErrors (d : UpdateData) : List String :=
  (if d.name.isSome && !nameValid d.name then ["name"] else [])
  ++ (if d.category.isSome && !categoryValid d.category then ["category"] else [])
  ++ (match d.price with
      | some v => if priceValid v then [] else ["price"]
      | none => [])
  ++ (if d.description.isSome && !descriptionValid d.description then ["description"] else [])
  ++ (match d.images with
      | some v => if imagesValid v then [] else ["images"]
      | none => [])

/-- A product with the supplied fields of `updateData` written over it. -/
def applyUpdate (now : Nat) (d : UpdateData) (p : Product) : Product :=
  { p with
    name := (d.name.map jsTrim).getD p.name
    category := d.category.getD p.category
    price := d.price.join.getD p.price
    description := (d.description.map jsTrim).getD p.description
    images := d.images.getD p.images
    updatedAt := now }

/-- The stored documents after `Product.findByIdAndUpdate(id, updateData)`. -/
def updateFirst (id : ObjectId) (f : Product → Product) : List Product → List Product
  | [] => []
  | p :: ps =>
    if p._id = id then f p :: ps
    else p :: updateFirst id f ps

/-- The images of the product addressed by an update: `oldProduct.images`, or
nothing when there is no such product. -/
def oldImages (s : State) (id : ObjectId) : List String :=
  match Product.findById s.products id with
  | some oldProduct => oldProduct.images
  | none => []

/-- The part of `router.patch('/:id')` after the image handling:
`findByIdAndUpdate` and the replies that follow it. -/
def writeUpdate (s : State) (now : Nat) (id : ObjectId) (req : ProductRequest) :
    Option Response × State :=
  let updateData := updateDataOf req
  let errors := updateErrors updateData
  if !errors.isEmpty then cleanupAndFail s req.files (.validation errors)
  else
    match Product.findById s.products id with
    | none => (some ⟨404, .message "Product not found"⟩, s)
    | some p =>
      (some ⟨200, .product (applyUpdate now updateData p)⟩,
        { s with products := updateFirst id (applyUpdate now updateData) s.products })

/-- The handler `router.patch('/:id')` of `routes/products.js`, on the id as
cast (for the request parameter see `updateProductRoute`). -/
def updateProduct (s : State) (now : Nat) (id : ObjectId) (req : ProductRequest) :
    Option Response × State :=
  match req.files with
  | some _ =>
    let r := unlinkEach s.fs (localImagePaths s (oldImages s id))
    let s1 := { s with fs := r.1 }
    if r.2 then
      cleanupAndFail s1 req.files .unlink
    else writeUpdate s1 now id req
  | none => writeUpdate s now id req

/-- The stored documents after `Product.findByIdAndDelete(id)`. -/
def removeFirst (id : ObjectId) : List Product → List Product
  | [] => []
  | p :: ps =>
    if p._id = id then ps
    else p :: removeFirst id ps

/-- The handler `router.delete('/:id')` of `routes/products.js`, on the id as
cast (for the request parameter see `deleteProductRoute`). -/
def deleteProduct (s : State) (id : ObjectId) : Response × State :=
  match Product.findById s.products id with
  | none => (⟨404, .message "Product not found"⟩, s)
  | some product =>
    let r := unlinkEach s.fs (localImagePaths s product.images)
    let s1 := { s with products := removeFirst id s.products, fs := r.1 }
    if r.2 then
      (⟨500, .error .unlink⟩, s1)
    else
      (⟨200, .message "Product deleted successfully"⟩, s1)

/-! ## The routes on the request as it arrives -/

/-- The route `PATCH /api/orders/:id/status` on the parameter `req.params.id`:
`findByIdAndUpdate` casts the parameter, and a cast that throws is answered by
the `catch` block with 400 and the error; otherwise the route is
`updateStatus` on the cast id. -/
def updateStatusRoute (s : State) (rawId : String) (status : JsValue) : Response × State :=
  if !(includes validStatuses status) then
    (⟨400, .message "Invalid status"⟩, s)
  else
    match castObjectId rawId with
    | none => (⟨400, .error .cast⟩, s)
    | some id => updateStatus s id status

/-- The route `DELETE /api/products/:id` on the parameter `req.params.id`: a
cast that throws is answered by the `catch` block with 500 and the error;
otherwise the route is `deleteProduct` on the cast id. -/
def deleteProductRoute (s : State) (rawId : String) : Response × State :=
  match castObjectId rawId with
  | none => (⟨500, .error .cast⟩, s)
  | some id => deleteProduct s id

/-- The route `PATCH /api/products/:id` on the parameter `req.params.id`: the
first database call (`findById` when there are uploads, `findByIdAndUpdate`
otherwise) casts the parameter, and a cast that throws goes to the `catch`
block; otherwise the route is `updateProduct` on the cast id. -/
def updateProductRoute (s : State) (now : Nat) (rawId : String) (req : ProductRequest) :
    Option Response × State :=
  match castObjectId rawId with
  | none => cleanupAndFail s req.files .cast
  | some id => updateProduct s now id req

/-- The result of `parseFloat`. -/
inductive ParsedFloat where
  | nan
  | infinity (negative : Bool)
  | finite (q : ℚ)
  deriving DecidableEq, Repr

/-- The number a string of decimal digits spells. -/
def digitsValue (ds : List Char) : Nat :=
  ds.foldl (fun acc c => 10 * acc + (c.toNat - '0'.toNat)) 0

/-- The exponent part at the head of a text: `e` or `E`, a sign or none, and
digits; 0 when the text does not start with one. -/
def exponentOf (cs : List Char) : ℤ :=
  match cs with
  | c :: t =>
    if c = 'e' ∨ c = 'E' then
      match t with
      | '+' :: u => (digitsValue (u.takeWhile Char.isDigit) : ℤ)
      | '-' :: u => - (digitsValue (u.takeWhile Char.isDigit) : ℤ)
      | u => (digitsValue (u.takeWhile Char.isDigit) : ℤ)
    else 0
  | [] => 0

/-- The unsigned decimal literal at the head of a text (digits, a fraction, an
exponent), or `none` when the text starts with none. -/
def parseUnsigned (cs : List Char) : Option ℚ :=
  let ip := cs.takeWhile Char.isDigit
  let r1 := cs.dropWhile Char.isDigit
  let fp := match r1 with
    | '.' :: t => t.takeWhile Char.isDigit
    | _ => []
  let r2 := match r1 with
    | '.' :: t => t.dropWhile Char.isDigit
    | _ => r1
  if ip = [] ∧ fp = [] then none
  else some ((digitsValue (ip ++ fp) : ℚ) / 10 ^ fp.length * 10 ^ exponentOf r2)

/-- The call `parseFloat(text)`: leading white space is skipped, then the
longest prefix that is a signed decimal literal or `Infinity` is read, and
whatever follows is ignored; `NaN` when there is no such prefix. -/
def parseFloat (text : String) : ParsedFloat :=
  let cs := text.data.dropWhile isJsWhitespace
  let negative := match cs with
    | '-' :: _ => true
    | _ => false
  let rest := match cs with
    | '-' :: t => t
    | '+' :: t => t
    | _ => cs
  if "Infinity".data.isPrefixOf rest then .infinity negative
  else
    match parseUnsigned rest with
    | none => .nan
    | some q => .finite (toDouble (if negative then -q else q))

/-- The body of a product request as it arrives: `price` is the text of the
field. -/
structure RawProductBody where
  name : Option String
  category : Option String
  price : Option String
  description : Option String
  images : Option BodyImages
  deriving DecidableEq, Repr

/-- The body the product handlers work on, with the price read by `parseFloat`
(`products.js`, lines 86 and 117); `none` for a price read as an infinity,
which is none of the numbers of the model. -/
def readBody (raw : RawProductBody) : Option ProductBody :=
  match raw.price with
  | none =>
    some { name := raw.name, category := raw.category, price := none,
           description := raw.description, images := raw.images }
  | some text =>
    match parseFloat text with
    | .nan =>
      some { name := raw.name, category := raw.category, price := some none,
             description := raw.description, images := raw.images }
    | .finite q =>
      some { name := raw.name, category := raw.category, price := some (some q),
             description := raw.description, images := raw.images }
    | .infinity _ => none

/-! ## Upload middleware (`storage` and `upload` of `routes/products.js`) -/

/-- A file of a multipart request as the upload middleware hands it to
`filename` and `fileFilter`. -/
structure IncomingFile where
  fieldname : String
  originalname : String
  mimetype : String
  size : Nat
  deriving DecidableEq, Repr

/-- The decimal digits JavaScript prints for a non-negative integer. -/
def decimal (n : Nat) : List Char :=
  Nat.toDigits 10 n

/-- The call `path.extname`: the part of the last path segment from its last
`.` on; empty when there is no `.`, when the only `.` opens the segment, and
for the segment `..`. -/
def extname (name : String) : String :=
  let base := ((splitSlash name.data).filter (fun seg => seg ≠ [])).getLastD []
  let tail := (base.reverse.takeWhile (fun c => c ≠ '.')).reverse
  if tail.length = base.length then ""
  else if tail.length + 1 = base.length then ""
  else if base = ['.', '.'] then ""
  else String.mk ('.' :: tail)

/-- The string `Date.now() + '-' + Math.round(Math.random() * 1E9)` for a clock
reading `now` and a rounded random draw `draw`. -/
def uniqueSuffix (now draw : Nat) : String :=
  String.mk (decimal now) ++ "-" ++ String.mk (decimal draw)

/-- The name the `filename` callback of the disk storage gives a file. -/
def filename (file : IncomingFile) (now draw : Nat) : String :=
  file.fieldname ++ "-" ++ uniqueSuffix now draw ++ extname file.originalname

/-- The limit `limits.fileSize`. -/
def fileSizeLimit : Nat := 10 * 1024 * 1024

/-- The callback `fileFilter`: `file.mimetype.startsWith('image/')`. -/
def fileFilter (file : IncomingFile) : Bool :=
  "image/".data.isPrefixOf file.mimetype.data

/-- The upload middleware on one file: the file is refused by `fileFilter` or
for its size and nothing is kept, or it is written to `uploadDir` under its
generated name. -/
def storeFile (s : State) (file : IncomingFile) (now draw : Nat) :
    Except String UploadedFile × State :=
  if fileFilter file then
    if file.size ≤ fileSizeLimit then
      (.ok ⟨filename file now draw⟩,
        { s with fs := { s.fs with
            files := s.fs.files ++ [pathJoin (uploadDir s) (filename file now draw)] } })
    else (.error "File too large", s)
  else (.error "Only image files are allowed!", s)

/-! ## Admin login (`routes/auth.js`) -/

/-- The environment variables the login route reads; `none` when unset. -/
structure Env where
  ADMIN_EMAIL : Option String
  ADMIN_PASSWORD : Option String
  JWT_SECRET : Option String
  deriving DecidableEq, Repr

/-- The comparison `v === process.env.X` of a body field with an environment
variable, which is a string or `undefined`. -/
def strictEq (v : JsValue) (e : Option String) : Bool :=
  match v, e with
  | .string a, some b => a == b
  | .undefined, none => true
  | _, _ => false

/-- The content of a token made by `jwt.sign`: the payload, the times of issue
and of expiry in seconds, and the key it is signed with. -/
structure Token where
  email : JsValue
  role : String
  iat : Nat
  exp : Nat
  key : String
  deriving DecidableEq, Repr

/-- The reply of the login route: the token, 401 with a message, or the 500 of
the framework when `jwt.sign` throws for want of a key. -/
inductive LoginReply where
  | token (t : Token)
  | unauthorized (message : String)
  | serverError
  deriving DecidableEq, Repr

/-- The handler `router.post('/login')` of `routes/auth.js`, at clock reading
`now` (milliseconds). -/
def login (env : Env) (now : Nat) (email password : JsValue) : LoginReply :=
  if strictEq email env.ADMIN_EMAIL && strictEq password env.ADMIN_PASSWORD then
    match env.JWT_SECRET with
    | some key =>
      if key = "" then .serverError
      else .token { email := email, role := "admin", iat := now / 1000,
                    exp := now / 1000 + 24 * 60 * 60, key := key }
    | none => .serverError
  else .unauthorized "Invalid credentials"

/-! ## Statement vocabulary -/

/-- The product a line of a request resolves to. -/
def resolve (products : List Product) (l : LineRequest) : Option Product :=
  Product.findById products l.productId

/-- The price the catalog holds for the product of a line (0 when there is no
such product). -/
def priceOf (products : List Product) (l : LineRequest) : ℚ :=
  ((resolve products l).map (fun p => p.price)).getD 0

/-- The quantity of a line as a number (0 when the field is missing). -/
def quantityOf (l : LineRequest) : ℚ :=
  l.quantity.getD 0

/-- The exact sum, over the lines, of price times quantity. -/
def linesTotal (products : List Product) (lines : List LineRequest) : ℚ :=
  (lines.map (fun l => priceOf products l * quantityOf l)).sum

/-- The item that snapshots the product of a line; `none` when the line does
not resolve. -/
def snapshot (products : List Product) (l : LineRequest) : Option OrderItem :=
  (resolve products l).map (fun p =>
    { productId := p._id, quantity := l.quantity, price := p.price })

/-- A small catalog and ledger used to evaluate the handlers. -/
def demoState : State where
  products :=
    [{ _id := "p1", name := "Silk Wrap Dress", category := "Evening Luxe", price := 128,
       description := "A dress", rating := 0, reviews := 0,
       images := ["/uploads/images-1-1.png", "https://cdn.example/a.png"],
       createdAt := 1, updatedAt := 1 },
     { _id := "p2", name := "Tee", category := "Streetwear", price := 20,
       description := "A tee", rating := 0, reviews := 0,
       images := ["/uploads/images-2-2.png"], createdAt := 2, updatedAt := 2 }]
  orders :=
    [{ _id := "o1", fullName := some "Ada", phone := some "1", address := some "x",
       size := some "M", items := [{ productId := "p1", quantity := some 2, price := 128 }],
       total := some 256, status := "pending", createdAt := 3 },
     { _id := "o2", fullName := some "Bob", phone := some "2", address := some "y",
       size := some "L", items := [{ productId := "p2", quantity := some 1, price := 20 }],
       total := some 20, status := "shipped", createdAt := 4 }]
  fs :=
    { files := [["app", "uploads", "images-1-1.png"], ["app", "uploads", "images-2-2.png"]]
      locked := [] }
  dirname := ["app", "routes"]

/-- An order request for two dresses and three tees. -/
def demoBody : OrderBody where
  fullName := some "Cy"
  phone := some "3"
  address := some "z"
  size := some "S"
  items := some [{ productId := "p1", quantity := some 2 }, { productId := "p2", quantity := some 3 }]
  total := some 1
  status := none

/-- A multipart request with valid fields and an upload list that is present
but empty. -/
def emptyUploadRequest : ProductRequest where
  files := some []
  body :=
    { name := some "Linen Shirt", category := some "Wardrobe Staples", price := some (some 40),
      description := some "A shirt", images := none }

/-- The state once the disk storage of `upload.array('images', 10)` has written
the files of a request into `uploadDir`, which happens before the handler runs. -/
def storeUploads (s : State) (files : Option (List UploadedFile)) : State :=
  match files with
  | none => s
  | some fl => { s with fs := { s.fs with files := s.fs.files ++ uploadPaths s fl } }

/-- Every stored product has at least one image. -/
def imagesNonEmpty (s : State) : Prop :=
  ∀ p ∈ s.products, p.images ≠ []

/-- A body that supplies no field. -/
def emptyBody : ProductBody where
  name := none
  category := none
  price := none
  description := none
  images := none

/-- The blob behind the first image of the product `p1` of `demoState`. -/
def demoBlob : Path := ["app", "uploads", "images-1-1.png"]

/-- The state `demoState` in which the blob `demoBlob` cannot be removed. -/
def lockedState : State :=
  { demoState with fs := { demoState.fs with locked := [demoBlob] } }

/-- A create request with one uploaded file and a category outside the enum. -/
def scarfRequest : ProductRequest where
  files := some [⟨"images-9-9.png"⟩]
  body :=
    { name := some "Scarf", category := some "Bogus", price := some (some 5),
      description := some "A scarf", images := none }

/-- An update request that replaces the images by one external reference. -/
def externalImageRequest : ProductRequest where
  files := none
  body := { emptyBody with images := some (.many ["https://cdn.example/b.png"]) }

/-- Every file of the file system is the blob behind a local image of some
stored product: no blob is orphaned. -/
def noOrphans (s : State) : Prop :=
  ∀ f ∈ s.fs.files, ∃ p ∈ s.products, f ∈ localImagePaths s p.images

/-- The state `demoState` after the upload of `images-9-9.png`, whose blob
cannot be removed. -/
def lockedUploadState : State :=
  { demoState with
    fs := { files := demoState.fs.files ++ [["app", "uploads", "images-9-9.png"]]
            locked := [["app", "uploads", "images-9-9.png"]] } }

/-- An update request with one uploaded file and a category outside the enum. -/
def bogusUpdateRequest : ProductRequest where
  files := some [⟨"images-9-9.png"⟩]
  body := { emptyBody with category := some "Bogus" }

/-- An update request with one uploaded file and no field. -/
def uploadOnlyRequest : ProductRequest where
  files := some [⟨"images-9-9.png"⟩]
  body := emptyBody

/-- The state `demoState` with the file `server.js` of the backend beside the
upload directory. -/
def traversalState : State :=
  { demoState with
    fs := { demoState.fs with files := demoState.fs.files ++ [["app", "server.js"]] } }

/-- A create request whose single image reference starts with `/uploads/` and
climbs out of the directory. -/
def traversalRequest : ProductRequest where
  files := none
  body :=
    { name := some "Linen Shirt", category := some "Wardrobe Staples", price := some (some 40),
      description := some "A shirt", images := some (.many ["/uploads/../server.js"]) }

/-- The environment of the examples. -/
def demoEnv : Env where
  ADMIN_EMAIL := some "admin@aura.test"
  ADMIN_PASSWORD := some "s3cret"
  JWT_SECRET := some "key"

/-- The order request `demoBody` with a total and a status of the client's. -/
def tamperedBody : OrderBody :=
  { demoBody with total := some 0, status := some "shipped" }

/-- The order that `demoBody` creates under the id `o3`. -/
def demoOrder : Order :=
  newOrder specOrderSchema "o3" 9 demoBody
    [{ productId := "p1", quantity := some 2, price := 128 },
     { productId := "p2", quantity := some 3, price := 20 }] (some 316)

/-- The order that `tamperedBody` creates under the id `o4`. -/
def tamperedOrder : Order :=
  newOrder specOrderSchema "o4" 10 tamperedBody
    [{ productId := "p1", quantity := some 2, price := 128 },
     { productId := "p2", quantity := some 3, price := 20 }] (some 316)

/-- A catalog with one product priced at the double nearest to 0.1. -/
def dimeState : State :=
  { demoState with
    products :=
      [{ _id := "p1", name := "Pin", category := "Streetwear",
         price := 3602879701896397 / 36028797018963968,
         description := "A pin", rating := 0, reviews := 0,
         images := ["https://cdn.example/pin.png"], createdAt := 1, updatedAt := 1 }] }

/-- An order request for three pins. -/
def dimeBody : OrderBody :=
  { demoBody with items := some [{ productId := "p1", quantity := some 3 }] }

/-- A well-formed id under which `demoState` stores nothing. -/
def unknownId : String := "64b7f1a2c3d4e5f601234509"

/-- A catalog whose single product has a well-formed id. -/
def hexState : State :=
  { demoState with
    products :=
      [{ _id := "64b7f1a2c3d4e5f601234501", name := "Tee", category := "Streetwear", price := 20,
         description := "A tee", rating := 0, reviews := 0,
         images := ["/uploads/images-2-2.png"], createdAt := 2, updatedAt := 2 }] }

/-- A create request as it arrives, with the price text `12.50abc`. -/
def lenientPriceBody : RawProductBody where
  name := some "Linen Shirt"
  category := some "Wardrobe Staples"
  price := some "12.50abc"
  description := some "A shirt"
  images := some (.one "https://cdn.example/c.png")

/-- The state `demoState` with a third image, a local one, on the product `p1`;
the blob of the second image cannot be removed. -/
def midLockedState : State :=
  { demoState with
    products :=
      [{ _id := "p1", name := "Silk Wrap Dress", category := "Evening Luxe", price := 128,
         description := "A dress", rating := 0, reviews := 0,
         images := ["/uploads/a.png", "/uploads/b.png", "/uploads/c.png"],
         createdAt := 1, updatedAt := 1 }]
    fs := { files := [["app", "uploads", "a.png"], ["app", "uploads", "b.png"],
                      ["app", "uploads", "c.png"]]
            locked := [["app", "uploads", "b.png"]] } }

/-! ## Lemmas on the order loop -/

theorem collectItems_resolved (products : List Product) (lines : List LineRequest) :
    ∀ (items : List OrderItem) (total : JsNumber),
      (∀ l ∈ lines, (resolve products l).isSome = true) →
      ∃ snaps : List OrderItem,
        lines.map (snapshot products) = snaps.map some ∧
        collectItems products lines items total =
          .ok (items ++ snaps,
            lines.foldl (fun t l => jsAdd t (jsMul (priceOf products l) l.quantity)) total) := by
  induction lines with
  | nil => intro items total _; exact ⟨[], by simp [collectItems]⟩
  | cons l rest ih =>
    intro items total h
    have hl := h l (List.mem_cons_self _ _)
    obtain ⟨p, hp⟩ := Option.isSome_iff_exists.mp hl
    have hp' : Product.findById products l.productId = some p := hp
    obtain ⟨snaps, hs, hc⟩ := ih
      (items ++ [{ productId := p._id, quantity := l.quantity, price := p.price }])
      (jsAdd total (jsMul p.price l.quantity))
      (fun x hx => h x (List.mem_cons_of_mem _ hx))
    refine ⟨{ productId := p._id, quantity := l.quantity, price := p.price } :: snaps, ?_, ?_⟩
    · simp [snapshot, hp, hs]
    · simp [collectItems, hp', hc, priceOf, hp]

theorem collectItems_unresolved (products : List Product) (lines : List LineRequest) :
    ∀ (items : List OrderItem) (total : JsNumber),
      (∃ l ∈ lines, resolve products l = none) →
      ∃ l ∈ lines, resolve products l = none ∧
        collectItems products lines items total = .error l.productId := by
  induction lines with
  | nil => intro items total h; simp at h
  | cons l rest ih =>
    intro items total h
    cases hl : Product.findById products l.productId with
    | none =>
      exact ⟨l, List.mem_cons_self _ _, hl, by simp [collectItems, hl]⟩
    | some p =>
      have hrest : ∃ x ∈ rest, resolve products x = none := by
        obtain ⟨x, hx, hxn⟩ := h
        rcases List.mem_cons.mp hx with rfl | hx'
        · simp [resolve, hl] at hxn
        · exact ⟨x, hx', hxn⟩
      obtain ⟨x, hx, hxn, hc⟩ := ih
        (items ++ [{ productId := p._id, quantity := l.quantity, price := p.price }])
        (jsAdd total (jsMul p.price l.quantity)) hrest
      exact ⟨x, List.mem_cons_of_mem _ hx, hxn, by simp [collectItems, hl, hc]⟩

theorem linesTotal_cons (products : List Product) (l : LineRequest)
    (rest : List LineRequest) :
    linesTotal products (l :: rest)
      = priceOf products l * quantityOf l + linesTotal products rest := by
  simp [linesTotal]

theorem foldl_total_exact (products : List Product) (lines : List LineRequest) :
    ∀ acc : ℚ,
      (∀ l ∈ lines, ∃ q, l.quantity = some q ∧
        toDouble (priceOf products l * q) = priceOf products l * q) →
      (∀ k ≤ lines.length, toDouble (acc + linesTotal products (lines.take k))
        = acc + linesTotal products (lines.take k)) →
      lines.foldl (fun t l => jsAdd t (jsMul (priceOf products l) l.quantity)) (some acc)
        = some (acc + linesTotal products lines) := by
  induction lines with
  | nil => intro acc _ _; simp [linesTotal]
  | cons l rest ih =>
    intro acc h1 h2
    obtain ⟨q, hq, hex⟩ := h1 l (List.mem_cons_self _ _)
    have hql : quantityOf l = q := by simp [quantityOf, hq]
    have hk1 : toDouble (acc + priceOf products l * q) = acc + priceOf products l * q := by
      have := h2 1 (by simp)
      simpa [linesTotal, hql] using this
    have hstep : jsAdd (some acc) (jsMul (priceOf products l) l.quantity)
        = some (acc + priceOf products l * q) := by
      simp only [hq, jsMul, jsAdd, hex, hk1]
    have hrest : ∀ k ≤ rest.length,
        toDouble (acc + priceOf products l * q + linesTotal products (rest.take k))
          = acc + priceOf products l * q + linesTotal products (rest.take k) := by
      intro k hk
      have := h2 (k + 1) (by simpa using hk)
      simpa [List.take_succ_cons, linesTotal_cons, hql, add_assoc] using this
    have := ih (acc + priceOf products l * q)
      (fun x hx => h1 x (List.mem_cons_of_mem _ hx)) hrest
    rw [List.foldl_cons, hstep, this, linesTotal_cons, hql, add_assoc]

theorem forall₂_of_snapshot (products : List Product) :
    ∀ (lines : List LineRequest) (snaps : List OrderItem),
      lines.map (snapshot products) = snaps.map some →
      List.Forall₂ (fun l i => ∃ p, resolve products l = some p ∧ i.productId = p._id ∧
        i.quantity = l.quantity ∧ i.price = p.price) lines snaps := by
  intro lines
  induction lines with
  | nil =>
    intro snaps h
    cases snaps with
    | nil => exact List.Forall₂.nil
    | cons a t => simp at h
  | cons l rest ih =>
    intro snaps h
    cases snaps with
    | nil => simp at h
    | cons a t =>
      simp only [List.map_cons, List.cons.injEq] at h
      refine List.Forall₂.cons ?_ (ih t h.2)
      cases hr : resolve products l with
      | none => simp [snapshot, hr] at h
      | some p =>
        have ha : a = { productId := p._id, quantity := l.quantity, price := p.price } := by
          have := h.1
          simp [snapshot, hr] at this
          exact this.symm
        exact ⟨p, rfl, by simp [ha]⟩

/-! ## Order creation -/

/-- C1 (fails as stated): with a product priced at the double nearest to 0.1
and a line asking for 3 of it, the order is persisted with the total
0.30000000000000004 (the double `1351079888211149 / 2 ^ 52`), which is not the
exact sum 3 times the price. -/
theorem createOrder_total_rounds :
    ∃ o : Order,
      createOrder specOrderSchema dimeState "o3" 9 dimeBody
        = (⟨201, .order o⟩, { dimeState with orders := dimeState.orders ++ [o] }) ∧
      o.total = some (1351079888211149 / 4503599627370496) ∧
      linesTotal dimeState.products [{ productId := "p1", quantity := some 3 }]
        = 10808639105689191 / 36028797018963968 ∧
      o.total ≠ some (linesTotal dimeState.products [{ productId := "p1", quantity := some 3 }]) := by
  refine ⟨newOrder specOrderSchema "o3" 9 dimeBody
    [{ productId := "p1", quantity := some 3, price := 3602879701896397 / 36028797018963968 }]
    (some (1351079888211149 / 4503599627370496)), ?_, rfl, ?_, ?_⟩
  · decide!
  · decide!
  · decide!

/-- C1 (amended): when every line of an order request resolves, the order
handed to `save()` has as total the sum the loop accumulates line by line in
double arithmetic, `total + price * quantity` with both operations rounded,
from 0 (so 0 for no lines); it is the exact sum of price times quantity over
the lines whenever every product and every partial sum is a double.  That
order is what is persisted when the schema accepts it, and nothing is
otherwise. -/
theorem createOrder_total (schema : OrderSchema) (s : State) (newId : ObjectId) (now : Nat)
    (body : OrderBody) (lines : List LineRequest)
    (hitems : body.items = some lines)
    (hres : ∀ l ∈ lines, (resolve s.products l).isSome = true) :
    ∃ o : Order,
      o.total = lines.foldl
        (fun t l => jsAdd t (jsMul (priceOf s.products l) l.quantity)) (some 0) ∧
      ((∀ l ∈ lines, ∃ q, l.quantity = some q ∧
          toDouble (priceOf s.products l * q) = priceOf s.products l * q) →
        (∀ k ≤ lines.length, toDouble (linesTotal s.products (lines.take k))
          = linesTotal s.products (lines.take k)) →
        o.total = some (linesTotal s.products lines)) ∧
      createOrder schema s newId now body =
        if schema.validate o then
          (⟨201, .order o⟩, { s with orders := s.orders ++ [o] })
        else (⟨400, .error (.validation ["order"])⟩, s) := by
  obtain ⟨snaps, _, hc⟩ := collectItems_resolved s.products lines [] (some 0) hres
  refine ⟨newOrder schema newId now body ([] ++ snaps)
    (lines.foldl (fun t l => jsAdd t (jsMul (priceOf s.products l) l.quantity)) (some 0)),
    rfl, ?_, ?_⟩
  · intro h1 h2
    have h2' : ∀ k ≤ lines.length, toDouble (0 + linesTotal s.products (lines.take k))
        = 0 + linesTotal s.products (lines.take k) := by
      intro k hk
      simpa using h2 k hk
    have := foldl_total_exact s.products lines 0 h1 h2'
    simpa [newOrder] using this
  · simp only [createOrder, hitems, hc]

theorem createOrder_total_witness :
    ∃ o : Order, o.total = some 316 ∧
      createOrder specOrderSchema demoState "o3" 9 demoBody =
        if specOrderSchema.validate o then
          (⟨201, .order o⟩, { demoState with orders := demoState.orders ++ [o] })
        else (⟨400, .error (.validation ["order"])⟩, demoState) := by
  obtain ⟨o, _, hexact, hrun⟩ := createOrder_total specOrderSchema demoState "o3" 9 demoBody
    [{ productId := "p1", quantity := some 2 }, { productId := "p2", quantity := some 3 }]
    rfl (by decide)
  refine ⟨o, ?_, hrun⟩
  have hsum : linesTotal demoState.products
      [{ productId := "p1", quantity := some 2 }, { productId := "p2", quantity := some 3 }]
      = 316 := by decide!
  rw [← hsum]
  apply hexact
  · intro l hl
    simp only [List.mem_cons, List.mem_singleton, List.not_mem_nil, or_false] at hl
    rcases hl with rfl | rfl
    · exact ⟨2, rfl, by decide!⟩
    · exact ⟨3, rfl, by decide!⟩
  · intro k hk
    have hk' : k ≤ 2 := hk
    interval_cases k <;> decide!

/-- C2: when every line of an order request resolves, the items of the order
handed to `save()` match the lines one for one and in order: item i carries
the id of the product line i resolves to, the quantity line i asks for, and
that product's current price; that order is what is persisted when the schema
accepts it. -/
theorem createOrder_items (schema : OrderSchema) (s : State) (newId : ObjectId) (now : Nat)
    (body : OrderBody) (lines : List LineRequest)
    (hitems : body.items = some lines)
    (hres : ∀ l ∈ lines, (resolve s.products l).isSome = true) :
    ∃ o : Order,
      List.Forall₂ (fun l i => ∃ p, resolve s.products l = some p ∧ i.productId = p._id ∧
        i.quantity = l.quantity ∧ i.price = p.price) lines o.items ∧
      createOrder schema s newId now body =
        if schema.validate o then
          (⟨201, .order o⟩, { s with orders := s.orders ++ [o] })
        else (⟨400, .error (.validation ["order"])⟩, s) := by
  obtain ⟨snaps, hs, hc⟩ := collectItems_resolved s.products lines [] (some 0) hres
  refine ⟨newOrder schema newId now body ([] ++ snaps)
    (lines.foldl (fun t l => jsAdd t (jsMul (priceOf s.products l) l.quantity)) (some 0)),
    ?_, ?_⟩
  · simpa [newOrder] using forall₂_of_snapshot s.products lines snaps hs
  · simp only [createOrder, hitems, hc]

theorem createOrder_items_witness :
    ∃ o : Order,
      List.Forall₂ (fun l i => ∃ p, resolve demoState.products l = some p ∧
        i.productId = p._id ∧ i.quantity = l.quantity ∧ i.price = p.price)
        [{ productId := "p2", quantity := some 3 }, { productId := "p1", quantity := some 1 }]
        o.items ∧
      createOrder specOrderSchema demoState "o3" 9
          { demoBody with items := some [{ productId := "p2", quantity := some 3 },
              { productId := "p1", quantity := some 1 }] } =
        if specOrderSchema.validate o then
          (⟨201, .order o⟩, { demoState with orders := demoState.orders ++ [o] })
        else (⟨400, .error (.validation ["order"])⟩, demoState) :=
  createOrder_items specOrderSchema demoState "o3" 9 _ _ rfl (by decide)

/-- C3: when some line of an order request names a product that does not
exist, wherever the line stands, the request is answered 400 "Product ... not
found" for an unresolved line and the state, stored orders included, is
unchanged. -/
theorem createOrder_unresolved (schema : OrderSchema) (s : State) (newId : ObjectId)
    (now : Nat) (body : OrderBody) (lines : List LineRequest)
    (hitems : body.items = some lines)
    (hmiss : ∃ l ∈ lines, resolve s.products l = none) :
    ∃ l ∈ lines, resolve s.products l = none ∧
      createOrder schema s newId now body =
        (⟨400, .message ("Product " ++ l.productId ++ " not found")⟩, s) := by
  obtain ⟨l, hl, hn, hc⟩ := collectItems_unresolved s.products lines [] (some 0) hmiss
  exact ⟨l, hl, hn, by simp only [createOrder, hitems, hc]⟩

theorem createOrder_unresolved_witness :
    ∃ l ∈ [({ productId := "p1", quantity := some 2 } : LineRequest),
        { productId := "gone", quantity := some 1 }],
      resolve demoState.products l = none ∧
      createOrder specOrderSchema demoState "o3" 9
          { demoBody with items := some [{ productId := "p1", quantity := some 2 },
              { productId := "gone", quantity := some 1 }] } =
        (⟨400, .message ("Product " ++ l.productId ++ " not found")⟩, demoState) :=
  createOrder_unresolved specOrderSchema demoState "o3" 9 _ _ rfl
    ⟨{ productId := "gone", quantity := some 1 }, by simp, by decide⟩

/-! ## Catalog operations leave the ledger alone -/

theorem cleanupAndFail_orders (s : State) (files : Option (List UploadedFile)) (e : Failure) :
    (cleanupAndFail s files e).2.orders = s.orders := by
  unfold cleanupAndFail
  cases files with
  | none => rfl
  | some fl => dsimp only; split <;> rfl

theorem writeUpdate_orders (s : State) (now : Nat) (id : ObjectId) (req : ProductRequest) :
    (writeUpdate s now id req).2.orders = s.orders := by
  unfold writeUpdate
  dsimp only
  split
  · exact cleanupAndFail_orders _ _ _
  · split <;> rfl

/-- C4: no update and no deletion of a product touches the Order collection:
after `router.patch('/:id')` and after `router.delete('/:id')`, whatever the
request and whether it succeeds, the stored orders (their totals and the price
of each of their items included) are the ones stored before. -/
theorem catalog_preserves_orders (s : State) (now : Nat) (id : ObjectId)
    (req : ProductRequest) :
    (updateProduct s now id req).2.orders = s.orders ∧
      (deleteProduct s id).2.orders = s.orders ∧
      (updateProduct s now id req).2.orders.map (fun o => (o.total, o.items.map (fun i => i.price)))
        = s.orders.map (fun o => (o.total, o.items.map (fun i => i.price))) ∧
      (deleteProduct s id).2.orders.map (fun o => (o.total, o.items.map (fun i => i.price)))
        = s.orders.map (fun o => (o.total, o.items.map (fun i => i.price))) := by
  have hu : (updateProduct s now id req).2.orders = s.orders := by
    unfold updateProduct
    split
    · dsimp only
      split
      · rw [cleanupAndFail_orders]
      · rw [writeUpdate_orders]
    · exact writeUpdate_orders s now id req
  have hd : (deleteProduct s id).2.orders = s.orders := by
    unfold deleteProduct
    split
    · rfl
    · dsimp only; split <;> rfl
  exact ⟨hu, hd, by rw [hu], by rw [hd]⟩

/-- C5 (fails on the code): an order request whose lines all resolve and whose
body carries `status: "delivered"` is persisted with status `delivered`, not
`pending`: the body is spread into the document and only `items` and `total`
are overwritten. -/
theorem createOrder_status_from_body :
    ∃ o : Order,
      createOrder specOrderSchema demoState "o3" 9 { demoBody with status := some "delivered" }
        = (⟨201, .order o⟩, { demoState with orders := demoState.orders ++ [o] }) ∧
      o.status = "delivered" ∧ o.status ≠ "pending" := by
  refine ⟨newOrder specOrderSchema "o3" 9 { demoBody with status := some "delivered" }
    [{ productId := "p1", quantity := some 2, price := 128 },
     { productId := "p2", quantity := some 3, price := 20 }] (some 316), ?_, rfl, by decide⟩
  simp [createOrder, collectItems, Product.findById, demoState, demoBody, newOrder,
    specOrderSchema, validStatuses, jsAdd, jsMul]
  decide!

/-! ## Order status -/

theorem findById_setStatus_self (id : ObjectId) (st : String) :
    ∀ orders : List Order,
      Order.findById (setStatus id st orders) id
        = (Order.findById orders id).map (fun o => { o with status := st }) := by
  intro orders
  induction orders with
  | nil => rfl
  | cons o os ih =>
    by_cases h : o._id = id
    · simp [setStatus, Order.findById, h]
    · have ih' := ih
      simp only [Order.findById] at ih'
      simp [setStatus, Order.findById, h, ih']

theorem setStatus_split (id : ObjectId) (st : String) :
    ∀ (orders : List Order) (o : Order), Order.findById orders id = some o →
      ∃ pre post, orders = pre ++ o :: post ∧ (∀ x ∈ pre, x._id ≠ id) ∧
        setStatus id st orders = pre ++ { o with status := st } :: post := by
  intro orders
  induction orders with
  | nil => intro o h; simp [Order.findById] at h
  | cons a os ih =>
    intro o h
    by_cases ha : a._id = id
    · have hao : a = o := by simpa [Order.findById, ha] using h
      subst hao
      exact ⟨[], os, rfl, by simp, by simp [setStatus, ha]⟩
    · have h' : Order.findById os id = some o := by
        simpa [Order.findById, ha] using h
      obtain ⟨pre, post, h1, h2, h3⟩ := ih o h'
      refine ⟨a :: pre, post, by simp [h1], ?_, by simp [setStatus, ha, h3]⟩
      intro x hx
      rcases List.mem_cons.mp hx with rfl | hx'
      · exact ha
      · exact h2 x hx'

theorem includes_of_mem (st : String) (h : st ∈ validStatuses) :
    includes validStatuses (.string st) = true := by
  simpa [includes] using h

/-- C6: for every order id and every requested status that is not one of the
five status strings (a missing status, `null`, a number, any other string),
`router.patch('/:id/status')` answers 400 "Invalid status" and leaves the
state, and so the status of every stored order, as it was. -/
theorem updateStatus_invalid (s : State) (id : ObjectId) (status : JsValue)
    (h : ∀ st ∈ validStatuses, status ≠ .string st) :
    updateStatus s id status = (⟨400, .message "Invalid status"⟩, s) := by
  have hinc : includes validStatuses status = false := by
    cases status with
    | string x =>
      have hx : x ∉ validStatuses := fun hx => h x hx rfl
      simpa [includes] using hx
    | _ => rfl
  simp [updateStatus, hinc]

theorem updateStatus_invalid_witness :
    (∀ st ∈ validStatuses, JsValue.undefined ≠ .string st) ∧
      updateStatus demoState "o1" .undefined = (⟨400, .message "Invalid status"⟩, demoState) :=
  ⟨by simp, updateStatus_invalid demoState "o1" .undefined (by simp)⟩

/-- C7: for every stored order, whatever its status, and every one of the five
statuses, `router.patch('/:id/status')` answers 200 and the order stored under
that id afterwards is the same order with the requested status: every status
is one step away from every other and none is terminal. -/
theorem updateStatus_valid (s : State) (id : ObjectId) (o : Order) (st : String)
    (hfind : Order.findById s.orders id = some o) (hst : st ∈ validStatuses) :
    (updateStatus s id (.string st)).1.status = 200 ∧
      Order.findById (updateStatus s id (.string st)).2.orders id
        = some { o with status := st } := by
  have hinc := includes_of_mem st hst
  simp [updateStatus, hinc, hfind, JsValue.asString, findById_setStatus_self]

theorem updateStatus_valid_witness :
    (updateStatus demoState "o2" (.string "pending")).1.status = 200 ∧
      Order.findById (updateStatus demoState "o2" (.string "pending")).2.orders "o2"
        = some { _id := "o2", fullName := some "Bob", phone := some "2", address := some "y",
                 size := some "L",
                 items := [{ productId := "p2", quantity := some 1, price := 20 }],
                 total := some 20, status := "pending", createdAt := 4 } :=
  updateStatus_valid demoState "o2"
    { _id := "o2", fullName := some "Bob", phone := some "2", address := some "y",
      size := some "L", items := [{ productId := "p2", quantity := some 1, price := 20 }],
      total := some 20, status := "shipped", createdAt := 4 }
    "pending" (by decide) (by decide)

theorem updateStatus_unknown (s : State) (id : ObjectId) (st : String)
    (hfind : Order.findById s.orders id = none) (hst : st ∈ validStatuses) :
    updateStatus s id (.string st) = (⟨404, .message "Order not found"⟩, s) := by
  have hinc := includes_of_mem st hst
  simp [updateStatus, hinc, hfind]

/-- C9: a status update that is answered 200 rewrites exactly one stored
order, the first one under the addressed id, and only its `status`: its id,
customer fields, items, total and `createdAt` are kept, every other order is
kept in place, and the products and the files are untouched. -/
theorem updateStatus_frame (s : State) (id : ObjectId) (status : JsValue)
    (hok : (updateStatus s id status).1.status = 200) :
    ∃ (pre post : List Order) (o : Order) (st : String),
      status = .string st ∧ o._id = id ∧ (∀ x ∈ pre, x._id ≠ id) ∧
      s.orders = pre ++ o :: post ∧
      (updateStatus s id status).2 =
        { s with orders := pre ++ { o with status := st } :: post } := by
  cases hinc : includes validStatuses status with
  | false => simp [updateStatus, hinc] at hok
  | true =>
    cases hfind : Order.findById s.orders id with
    | none => simp [updateStatus, hinc, hfind] at hok
    | some o =>
      cases status with
      | string st =>
        obtain ⟨pre, post, h1, h2, h3⟩ := setStatus_split id st s.orders o hfind
        have hid : o._id = id := by
          have := List.find?_some hfind
          simpa using this
        exact ⟨pre, post, o, st, rfl, hid, h2, h1,
          by simp [updateStatus, hinc, hfind, JsValue.asString, h3]⟩
      | _ => simp [includes] at hinc

theorem updateStatus_frame_witness :
    ∃ (pre post : List Order) (o : Order) (st : String),
      JsValue.string "cancelled" = .string st ∧ o._id = "o1" ∧ (∀ x ∈ pre, x._id ≠ "o1") ∧
      demoState.orders = pre ++ o :: post ∧
      (updateStatus demoState "o1" (.string "cancelled")).2 =
        { demoState with orders := pre ++ { o with status := st } :: post } :=
  updateStatus_frame demoState "o1" (.string "cancelled") (by decide)

/-! ## Product creation -/

/-- C10 (fails on the code): `router.post('/')` with valid fields and an upload
list that is present but empty answers 201 and persists a product whose
`images` is empty; the check "At least one image is required" is only reached
when there is neither an upload list nor an `images` field. -/
theorem createProduct_empty_uploads :
    ∃ p : Product,
      createProduct demoState "p3" 9 emptyUploadRequest
        = (some ⟨201, .product p⟩, { demoState with products := demoState.products ++ [p] }) ∧
      p.images = [] := by
  refine ⟨{ _id := "p3", name := "Linen Shirt", category := "Wardrobe Staples", price := 40,
            description := "A shirt", rating := 0, reviews := 0, images := [],
            createdAt := 9, updatedAt := 9 }, ?_, rfl⟩
  decide

/-! ## Lemmas on the removal of files -/

theorem unlinkEach_absent (fs : FileSystem) (p : Path) (ps : List Path)
    (he : fs.existsSync p = false) : unlinkEach fs (p :: ps) = unlinkEach fs ps := by
  simp [unlinkEach, he]

theorem unlinkEach_throw (fs : FileSystem) (p : Path) (ps : List Path)
    (he : fs.existsSync p = true) (hl : fs.locked.contains p = true) :
    unlinkEach fs (p :: ps) = (fs, true) := by
  rw [unlinkEach, if_pos he, if_pos hl]

theorem unlinkEach_remove (fs : FileSystem) (p : Path) (ps : List Path)
    (he : fs.existsSync p = true) (hl : fs.locked.contains p = false) :
    unlinkEach fs (p :: ps) = unlinkEach (fs.remove p) ps := by
  rw [unlinkEach, if_pos he, if_neg (show ¬ fs.locked.contains p = true by rw [hl]; simp)]

theorem unlinkEach_locked (ps : List Path) :
    ∀ fs : FileSystem, (unlinkEach fs ps).1.locked = fs.locked := by
  induction ps with
  | nil => intro fs; rfl
  | cons p ps ih =>
    intro fs
    cases he : fs.existsSync p with
    | false => rw [unlinkEach_absent fs p ps he]; exact ih fs
    | true =>
      cases hl : fs.locked.contains p with
      | true => rw [unlinkEach_throw fs p ps he hl]
      | false => rw [unlinkEach_remove fs p ps he hl, ih]; rfl

theorem unlinkEach_files_of_ok (ps : List Path) :
    ∀ fs : FileSystem, (unlinkEach fs ps).2 = false →
      (unlinkEach fs ps).1.files = fs.files.filter (fun q => !ps.contains q) := by
  induction ps with
  | nil => intro fs _; simp [unlinkEach]
  | cons p ps ih =>
    intro fs h
    cases he : fs.existsSync p with
    | false =>
      rw [unlinkEach_absent fs p ps he] at h ⊢
      rw [ih fs h]
      apply List.filter_congr
      intro q hq
      have hne : q ≠ p := by
        rintro rfl
        have : fs.existsSync q = true := by simpa [FileSystem.existsSync] using hq
        simp [he] at this
      simp [hne]
    | true =>
      cases hl : fs.locked.contains p with
      | true => rw [unlinkEach_throw fs p ps he hl] at h; simp at h
      | false =>
        rw [unlinkEach_remove fs p ps he hl] at h ⊢
        rw [ih _ h]
        simp only [FileSystem.remove, List.filter_filter]
        apply List.filter_congr
        intro q _
        by_cases hq : q = p <;> simp [hq]

theorem unlinkEach_ok_of_unlocked (ps : List Path) :
    ∀ fs : FileSystem, (∀ p ∈ ps, p ∉ fs.locked) → (unlinkEach fs ps).2 = false := by
  induction ps with
  | nil => intro fs _; rfl
  | cons p ps ih =>
    intro fs h
    have hl : fs.locked.contains p = false := by
      simpa using h p (List.mem_cons_self _ _)
    have hrest : ∀ q ∈ ps, q ∉ fs.locked := fun q hq => h q (List.mem_cons_of_mem _ hq)
    cases he : fs.existsSync p with
    | false => rw [unlinkEach_absent fs p ps he]; exact ih fs hrest
    | true => rw [unlinkEach_remove fs p ps he hl]; exact ih (fs.remove p) hrest

theorem unlinkEach_removed (ps : List Path) :
    ∀ (fs : FileSystem) (q : Path), q ∈ fs.files → q ∉ (unlinkEach fs ps).1.files → q ∈ ps := by
  induction ps with
  | nil => intro fs q hq hn; exact absurd hq hn
  | cons p ps ih =>
    intro fs q hq hn
    by_cases hqp : q = p
    · simp [hqp]
    · refine List.mem_cons_of_mem _ ?_
      cases he : fs.existsSync p with
      | false =>
        rw [unlinkEach_absent fs p ps he] at hn
        exact ih fs q hq hn
      | true =>
        cases hl : fs.locked.contains p with
        | true =>
          rw [unlinkEach_throw fs p ps he hl] at hn
          exact absurd hq hn
        | false =>
          rw [unlinkEach_remove fs p ps he hl] at hn
          refine ih (fs.remove p) q ?_ hn
          simp [FileSystem.remove, hq, hqp]

/-! ## Lemmas on the Product collection -/

theorem findById_id (products : List Product) (id : ObjectId) (p : Product)
    (h : Product.findById products id = some p) : p._id = id := by
  have := List.find?_some h
  simpa using this

theorem findById_split (id : ObjectId) :
    ∀ (products : List Product) (p : Product), Product.findById products id = some p →
      ∃ pre post, products = pre ++ p :: post ∧ (∀ x ∈ pre, x._id ≠ id) := by
  intro products
  induction products with
  | nil => intro p h; simp [Product.findById] at h
  | cons a ps ih =>
    intro p h
    by_cases ha : a._id = id
    · have hap : a = p := by simpa [Product.findById, ha] using h
      subst hap
      exact ⟨[], ps, rfl, by simp⟩
    · have h' : Product.findById ps id = some p := by
        simpa [Product.findById, ha] using h
      obtain ⟨pre, post, h1, h2⟩ := ih p h'
      refine ⟨a :: pre, post, by simp [h1], ?_⟩
      intro x hx
      rcases List.mem_cons.mp hx with rfl | hx'
      · exact ha
      · exact h2 x hx'

theorem updateFirst_split (id : ObjectId) (f : Product → Product) (p : Product) :
    ∀ (pre post : List Product), p._id = id → (∀ x ∈ pre, x._id ≠ id) →
      updateFirst id f (pre ++ p :: post) = pre ++ f p :: post := by
  intro pre
  induction pre with
  | nil => intro post hp _; simp [updateFirst, hp]
  | cons a pre ih =>
    intro post hp h
    have ha : a._id ≠ id := h a (List.mem_cons_self _ _)
    have := ih post hp (fun x hx => h x (List.mem_cons_of_mem _ hx))
    simp [updateFirst, ha, this]

theorem removeFirst_split (id : ObjectId) (p : Product) :
    ∀ (pre post : List Product), p._id = id → (∀ x ∈ pre, x._id ≠ id) →
      removeFirst id (pre ++ p :: post) = pre ++ post := by
  intro pre
  induction pre with
  | nil => intro post hp _; simp [removeFirst, hp]
  | cons a pre ih =>
    intro post hp h
    have ha : a._id ≠ id := h a (List.mem_cons_self _ _)
    have := ih post hp (fun x hx => h x (List.mem_cons_of_mem _ hx))
    simp [removeFirst, ha, this]

/-! ## Images of a product -/

/-- C11 (fails on the code): in `demoState` every product has an image; after
`router.patch('/:id')` with an `images` field that is an empty array, and after
`router.post('/')` with an upload list that is present but empty, both
answered with success, a stored product has no image. -/
theorem imagesNonEmpty_not_preserved :
    imagesNonEmpty demoState ∧
      ((updateProduct demoState 9 "p2"
          ⟨none, { emptyBody with images := some (.many []) }⟩).1.map (fun r => r.status)
        = some 200 ∧
       ¬ imagesNonEmpty (updateProduct demoState 9 "p2"
          ⟨none, { emptyBody with images := some (.many []) }⟩).2) ∧
      ((createProduct demoState "p3" 9 emptyUploadRequest).1.map (fun r => r.status)
        = some 201 ∧
       ¬ imagesNonEmpty (createProduct demoState "p3" 9 emptyUploadRequest).2) := by
  unfold imagesNonEmpty
  refine ⟨by decide, ⟨by decide, ?_⟩, ⟨by decide, ?_⟩⟩
  · intro h
    exact h { _id := "p2", name := "Tee", category := "Streetwear", price := 20,
              description := "A tee", rating := 0, reviews := 0, images := [],
              createdAt := 2, updatedAt := 9 } (by decide) rfl
  · intro h
    exact h { _id := "p3", name := "Linen Shirt", category := "Wardrobe Staples", price := 40,
              description := "A shirt", rating := 0, reviews := 0, images := [],
              createdAt := 9, updatedAt := 9 } (by decide) rfl

/-- C13 (fails on the code): `router.patch('/:id')` on the product `p1` with no
field and an upload list that is present but empty is answered 200, after
which the product has no image left and the blob of its local image is gone
from the upload directory. -/
theorem updateProduct_empty_uploads :
    (updateProduct demoState 9 "p1" ⟨some [], emptyBody⟩).1.map (fun r => r.status) = some 200 ∧
      (Product.findById demoState.products "p1").map (fun p => p.images)
        = some ["/uploads/images-1-1.png", "https://cdn.example/a.png"] ∧
      (Product.findById (updateProduct demoState 9 "p1" ⟨some [], emptyBody⟩).2.products "p1").map
        (fun p => p.images) = some [] ∧
      demoBlob ∈ demoState.fs.files ∧
      demoBlob ∉ (updateProduct demoState 9 "p1" ⟨some [], emptyBody⟩).2.fs.files := by
  decide

/-- C14 (fails on the code): `router.patch('/:id')` on the product `p1` with one
uploaded file and a category outside the enum is answered 400 and the record
keeps its images, but the blob of its local image has been removed before the
write was attempted. -/
theorem updateProduct_failed_write_loses_blob :
    (updateProduct (storeUploads demoState (some [⟨"images-9-9.png"⟩])) 9 "p1"
        ⟨some [⟨"images-9-9.png"⟩], { emptyBody with category := some "Bogus" }⟩).1
      = some ⟨400, .error (.validation ["category"])⟩ ∧
      (updateProduct (storeUploads demoState (some [⟨"images-9-9.png"⟩])) 9 "p1"
        ⟨some [⟨"images-9-9.png"⟩], { emptyBody with category := some "Bogus" }⟩).2.products
      = demoState.products ∧
      "/uploads/images-1-1.png" ∈ (demoState.products.map (fun p => p.images)).flatten ∧
      pathJoin (pathJoin demoState.dirname "..") "/uploads/images-1-1.png" = demoBlob ∧
      demoBlob ∈ (storeUploads demoState (some [⟨"images-9-9.png"⟩])).fs.files ∧
      demoBlob ∉ (updateProduct (storeUploads demoState (some [⟨"images-9-9.png"⟩])) 9 "p1"
        ⟨some [⟨"images-9-9.png"⟩], { emptyBody with category := some "Bogus" }⟩).2.fs.files := by
  decide

/-! ## Product update: fields -/

theorem cleanupAndFail_status (s : State) (files : Option (List UploadedFile)) (e : Failure) :
    (cleanupAndFail s files e).1.map (fun r => r.status) ≠ some 200 := by
  unfold cleanupAndFail
  cases files with
  | none => simp
  | some fl => dsimp only; split <;> simp

theorem cleanupAndFail_products (s : State) (files : Option (List UploadedFile)) (e : Failure) :
    (cleanupAndFail s files e).2.products = s.products := by
  unfold cleanupAndFail
  cases files with
  | none => rfl
  | some fl => dsimp only; split <;> rfl

theorem writeUpdate_ok (s : State) (now : Nat) (id : ObjectId) (req : ProductRequest)
    (hok : (writeUpdate s now id req).1.map (fun r => r.status) = some 200) :
    updateErrors (updateDataOf req) = [] ∧
      ∃ p, Product.findById s.products id = some p ∧
        (writeUpdate s now id req).2 =
          { s with products := updateFirst id (applyUpdate now (updateDataOf req)) s.products } := by
  unfold writeUpdate at hok ⊢
  dsimp only at hok ⊢
  cases herr : (updateErrors (updateDataOf req)).isEmpty with
  | false =>
    simp only [herr, Bool.not_false, if_true] at hok
    exact absurd hok (cleanupAndFail_status _ _ _)
  | true =>
    have hnil : updateErrors (updateDataOf req) = [] := List.isEmpty_iff.mp herr
    cases hfind : Product.findById s.products id with
    | none => simp [herr, hfind] at hok
    | some p => exact ⟨hnil, p, rfl, by simp [herr]⟩

theorem updateProduct_ok (s : State) (now : Nat) (id : ObjectId) (req : ProductRequest)
    (hok : (updateProduct s now id req).1.map (fun r => r.status) = some 200) :
    updateErrors (updateDataOf req) = [] ∧
      ∃ p, Product.findById s.products id = some p ∧
        (updateProduct s now id req).2.products =
          updateFirst id (applyUpdate now (updateDataOf req)) s.products := by
  unfold updateProduct at hok ⊢
  cases hf : req.files with
  | none =>
    simp only [hf] at hok ⊢
    obtain ⟨h1, p, h2, h3⟩ := writeUpdate_ok s now id req hok
    exact ⟨h1, p, h2, by rw [h3]⟩
  | some fl =>
    simp only [hf] at hok ⊢
    cases hthrow : (unlinkEach s.fs (localImagePaths s (oldImages s id))).2 with
    | true =>
      simp only [hthrow, if_true] at hok
      rw [← hf] at hok
      exact absurd hok (cleanupAndFail_status _ _ _)
    | false =>
      simp only [hthrow] at hok ⊢
      obtain ⟨h1, p, h2, h3⟩ := writeUpdate_ok _ now id req hok
      exact ⟨h1, p, h2, by simp [h3]⟩

theorem price_of_updateErrors (d : UpdateData) (v : JsNumber)
    (herr : updateErrors d = []) (hv : d.price = some v) : ∃ q : ℚ, v = some q := by
  cases v with
  | some q => exact ⟨q, rfl⟩
  | none => simp [updateErrors, hv, priceValid] at herr

/-- C12 (fails as stated): `router.patch('/:id')` on `p1` with the name
`" Gown "` is answered 200 and the stored name is `"Gown"`, not the supplied
value: the schema trims `name` and `description`. -/
theorem updateProduct_name_trimmed :
    (updateProduct demoState 9 "p1"
        ⟨none, { emptyBody with name := some " Gown " }⟩).1.map (fun r => r.status) = some 200 ∧
      (Product.findById (updateProduct demoState 9 "p1"
        ⟨none, { emptyBody with name := some " Gown " }⟩).2.products "p1").map (fun p => p.name)
        = some "Gown" ∧
      "Gown" ≠ " Gown " := by
  decide

/-- C12 (amended): an update that is answered 200 rewrites exactly one stored
product, the first one under the addressed id.  Of `name`, `category`, `price`
and `description`, a field the request does not supply keeps its value and a
supplied field takes the supplied value, `name` and `description` with the
surrounding whitespace trimmed; `_id`, `rating`, `reviews` and `createdAt` are
kept, and every other product is kept in place. -/
theorem updateProduct_merge (s : State) (now : Nat) (id : ObjectId) (req : ProductRequest)
    (hok : (updateProduct s now id req).1.map (fun r => r.status) = some 200) :
    ∃ (pre post : List Product) (p p' : Product),
      s.products = pre ++ p :: post ∧ p._id = id ∧ (∀ x ∈ pre, x._id ≠ id) ∧
      (updateProduct s now id req).2.products = pre ++ p' :: post ∧
      p'._id = p._id ∧ p'.rating = p.rating ∧ p'.reviews = p.reviews ∧
      p'.createdAt = p.createdAt ∧
      (match req.body.name with
        | some v => p'.name = jsTrim v
        | none => p'.name = p.name) ∧
      (match req.body.category with
        | some v => p'.category = v
        | none => p'.category = p.category) ∧
      (match req.body.price with
        | some v => v = some p'.price
        | none => p'.price = p.price) ∧
      (match req.body.description with
        | some v => p'.description = jsTrim v
        | none => p'.description = p.description) := by
  obtain ⟨herr, p, hfind, hprod⟩ := updateProduct_ok s now id req hok
  obtain ⟨pre, post, hsplit, hpre⟩ := findById_split id s.products p hfind
  have hid := findById_id s.products id p hfind
  refine ⟨pre, post, p, applyUpdate now (updateDataOf req) p, hsplit, hid, hpre, ?_,
    rfl, rfl, rfl, rfl, ?_, ?_, ?_, ?_⟩
  · rw [hprod, hsplit]
    exact updateFirst_split id _ p pre post hid hpre
  · cases h : req.body.name <;> simp [applyUpdate, updateDataOf, h]
  · cases h : req.body.category <;> simp [applyUpdate, updateDataOf, h]
  · cases h : req.body.price with
    | none => simp [applyUpdate, updateDataOf, h]
    | some v =>
      obtain ⟨q, hq⟩ := price_of_updateErrors (updateDataOf req) v herr (by simp [updateDataOf, h])
      simp [applyUpdate, updateDataOf, h, hq]
  · cases h : req.body.description <;> simp [applyUpdate, updateDataOf, h]

theorem updateProduct_merge_witness :
    ∃ (pre post : List Product) (p p' : Product),
      demoState.products = pre ++ p :: post ∧ p._id = "p2" ∧ (∀ x ∈ pre, x._id ≠ "p2") ∧
      (updateProduct demoState 9 "p2"
        ⟨none, { emptyBody with price := some (some 25) }⟩).2.products = pre ++ p' :: post ∧
      p'._id = p._id ∧ p'.rating = p.rating ∧ p'.reviews = p.reviews ∧
      p'.createdAt = p.createdAt ∧
      p'.name = p.name ∧ p'.category = p.category ∧ some (some (25 : ℚ)) = some (some p'.price) ∧
      p'.description = p.description := by
  have h := updateProduct_merge demoState 9 "p2"
    ⟨none, { emptyBody with price := some (some 25) }⟩ (by decide)
  simpa [emptyBody] using h

/-! ## Product creation: a write that fails -/

theorem filter_uploads (files ups : List Path) (hfresh : ∀ p ∈ ups, p ∉ files) :
    (files ++ ups).filter (fun q => !ups.contains q) = files := by
  rw [List.filter_append]
  have h1 : files.filter (fun q => !ups.contains q) = files := by
    apply List.filter_eq_self.mpr
    intro q hq
    have : q ∉ ups := fun hu => hfresh q hu hq
    simpa using this
  have h2 : ups.filter (fun q => !ups.contains q) = [] := by
    apply List.filter_eq_nil_iff.mpr
    intro q hq
    simpa using hq
  rw [h1, h2, List.append_nil]

theorem unlinkEach_uploads (fs : FileSystem) (ups : List Path)
    (hfresh : ∀ p ∈ ups, p ∉ fs.files) (hunlocked : ∀ p ∈ ups, p ∉ fs.locked) :
    unlinkEach { fs with files := fs.files ++ ups } ups = (fs, false) := by
  have hok := unlinkEach_ok_of_unlocked ups { fs with files := fs.files ++ ups } hunlocked
  have hfiles := unlinkEach_files_of_ok ups { fs with files := fs.files ++ ups } hok
  have hlocked := unlinkEach_locked ups { fs with files := fs.files ++ ups }
  simp only [filter_uploads fs.files ups hfresh] at hfiles
  generalize unlinkEach { fs with files := fs.files ++ ups } ups = r at hok hfiles hlocked
  obtain ⟨⟨f, l⟩, b⟩ := r
  simp only at hok hfiles hlocked
  subst hok hfiles hlocked
  rfl

theorem cleanupAndFail_restores (s : State) (files : Option (List UploadedFile)) (e : Failure)
    (hfresh : ∀ fl, files = some fl → ∀ p ∈ uploadPaths s fl, p ∉ s.fs.files)
    (hunlocked : ∀ fl, files = some fl → ∀ p ∈ uploadPaths s fl, p ∉ s.fs.locked) :
    cleanupAndFail (storeUploads s files) files e = (some ⟨400, .error e⟩, s) := by
  cases files with
  | none => rfl
  | some fl =>
    have h := unlinkEach_uploads s.fs (uploadPaths s fl) (hfresh fl rfl) (hunlocked fl rfl)
    have h' : unlinkEach (storeUploads s (some fl)).fs
        (uploadPaths (storeUploads s (some fl)) fl) = (s.fs, false) := h
    simp only [cleanupAndFail, h']
    simp [storeUploads]

/-- C15: when the write of `router.post('/')` fails (the document does not pass
the schema), and the files uploaded with the request carry fresh names and can
be removed, the handler removes every one of them and answers 400 with the
validation error: the state after the request, upload directory and catalog
included, is the state before the upload middleware stored the files. -/
theorem createProduct_failed_write (s : State) (newId : ObjectId) (now : Nat)
    (req : ProductRequest) (imageUrls : List String)
    (himg : createImageUrls req = some imageUrls)
    (hfail : createErrors req.body imageUrls ≠ [])
    (hfresh : ∀ fl, req.files = some fl → ∀ p ∈ uploadPaths s fl, p ∉ s.fs.files)
    (hunlocked : ∀ fl, req.files = some fl → ∀ p ∈ uploadPaths s fl, p ∉ s.fs.locked) :
    createProduct (storeUploads s req.files) newId now req
      = (some ⟨400, .error (.validation (createErrors req.body imageUrls))⟩, s) := by
  have hne : (createErrors req.body imageUrls).isEmpty = false := by
    cases h : createErrors req.body imageUrls with
    | nil => exact absurd h hfail
    | cons a t => rfl
  simp only [createProduct, himg, hne]
  exact cleanupAndFail_restores s req.files _ hfresh hunlocked

theorem createProduct_failed_write_witness :
    createProduct (storeUploads demoState (some [⟨"images-9-9.png"⟩])) "p3" 9
        scarfRequest
      = (some ⟨400, .error (.validation ["category"])⟩, demoState) :=
  createProduct_failed_write demoState "p3" 9
    scarfRequest
    ["/uploads/images-9-9.png"] (by decide) (by decide) (by decide) (by decide)

/-! ## Product update and deletion: blobs -/

/-- C16 (fails on the code): `router.patch('/:id')` on `p1` with an `images`
field holding one external reference is answered 200 and the images of `p1`
are that reference, but the blob of the local image `p1` referenced before,
which no product references any more, is still in the upload directory. -/
theorem updateProduct_urls_keep_blob :
    (updateProduct demoState 9 "p1" externalImageRequest).1.map (fun r => r.status) = some 200 ∧
      (Product.findById (updateProduct demoState 9 "p1" externalImageRequest).2.products "p1").map
        (fun p => p.images) = some ["https://cdn.example/b.png"] ∧
      "/uploads/images-1-1.png" ∈ oldImages demoState "p1" ∧
      isLocalUpload "/uploads/images-1-1.png" = true ∧
      pathJoin (pathJoin demoState.dirname "..") "/uploads/images-1-1.png" = demoBlob ∧
      "/uploads/images-1-1.png" ∉
        ((updateProduct demoState 9 "p1" externalImageRequest).2.products.map
          (fun p => p.images)).flatten ∧
      demoBlob ∈ (updateProduct demoState 9 "p1" externalImageRequest).2.fs.files := by
  decide

theorem mem_localImagePaths (s : State) (images : List String) (q : Path)
    (h : q ∈ localImagePaths s images) :
    ∃ img ∈ images, isLocalUpload img = true ∧ q = pathJoin (pathJoin s.dirname "..") img := by
  simp only [localImagePaths, List.mem_map, List.mem_filter] at h
  obtain ⟨img, ⟨h1, h2⟩, h3⟩ := h
  exact ⟨img, h1, h2, h3.symm⟩

theorem cleanupAndFail_removed (s : State) (files : Option (List UploadedFile)) (e : Failure)
    (q : Path) (hq : q ∈ s.fs.files) (hn : q ∉ (cleanupAndFail s files e).2.fs.files) :
    ∃ fl, files = some fl ∧ q ∈ uploadPaths s fl := by
  cases files with
  | none => exact absurd hq hn
  | some fl =>
    refine ⟨fl, rfl, unlinkEach_removed (uploadPaths s fl) s.fs q hq ?_⟩
    unfold cleanupAndFail at hn
    dsimp only at hn
    split at hn <;> exact hn

theorem writeUpdate_removed (s : State) (now : Nat) (id : ObjectId) (req : ProductRequest)
    (q : Path) (hq : q ∈ s.fs.files) (hn : q ∉ (writeUpdate s now id req).2.fs.files) :
    ∃ fl, req.files = some fl ∧ q ∈ uploadPaths s fl := by
  unfold writeUpdate at hn
  dsimp only at hn
  split at hn
  · exact cleanupAndFail_removed s req.files _ q hq hn
  · split at hn <;> exact absurd hq hn

theorem updateProduct_removed (s : State) (now : Nat) (id : ObjectId) (req : ProductRequest)
    (q : Path) (hq : q ∈ s.fs.files) (hn : q ∉ (updateProduct s now id req).2.fs.files) :
    q ∈ localImagePaths s (oldImages s id) ∨ ∃ fl, req.files = some fl ∧ q ∈ uploadPaths s fl := by
  unfold updateProduct at hn
  cases hf : req.files with
  | none =>
    simp only [hf] at hn
    obtain ⟨fl, h1, _⟩ := writeUpdate_removed s now id req q hq hn
    rw [hf] at h1
    exact absurd h1 (by simp)
  | some fl =>
    simp only [hf] at hn
    by_cases hr : q ∈ (unlinkEach s.fs (localImagePaths s (oldImages s id))).1.files
    · right
      split at hn
      · obtain ⟨fl', h1, h2⟩ := cleanupAndFail_removed _ (some fl) _ q hr hn
        exact ⟨fl', h1, h2⟩
      · obtain ⟨fl', h1, h2⟩ := writeUpdate_removed _ now id req q hr hn
        exact ⟨fl', by rw [← hf]; exact h1, h2⟩
    · exact Or.inl (unlinkEach_removed _ s.fs q hq hr)

theorem deleteProduct_removed (s : State) (id : ObjectId) (q : Path)
    (hq : q ∈ s.fs.files) (hn : q ∉ (deleteProduct s id).2.fs.files) :
    q ∈ localImagePaths s (oldImages s id) := by
  unfold deleteProduct at hn
  unfold oldImages
  cases hfind : Product.findById s.products id with
  | none => simp only [hfind] at hn; exact absurd hq hn
  | some product =>
    simp only [hfind] at hn ⊢
    refine unlinkEach_removed _ s.fs q hq ?_
    split at hn <;> exact hn

/-- C17: every file that is in the upload area before a product update (whose
own uploads carry fresh names) and is gone after it, and every file that is
gone after a product deletion, is the file an image of that very product names
through a reference that starts with `/uploads/`; a reference that does not
start with `/uploads/` removes nothing. -/
theorem removed_blobs_are_owned (s : State) (now : Nat) (id : ObjectId) (req : ProductRequest)
    (hfresh : ∀ fl, req.files = some fl → ∀ p ∈ uploadPaths s fl, p ∉ s.fs.files) :
    (∀ q ∈ s.fs.files, q ∉ (updateProduct (storeUploads s req.files) now id req).2.fs.files →
      ∃ img ∈ oldImages s id, isLocalUpload img = true ∧
        q = pathJoin (pathJoin s.dirname "..") img) ∧
    (∀ q ∈ s.fs.files, q ∉ (deleteProduct s id).2.fs.files →
      ∃ img ∈ oldImages s id, isLocalUpload img = true ∧
        q = pathJoin (pathJoin s.dirname "..") img) := by
  constructor
  · intro q hq hn
    have hq' : q ∈ (storeUploads s req.files).fs.files := by
      unfold storeUploads
      cases req.files with
      | none => exact hq
      | some fl => exact List.mem_append_left _ hq
    have hsame : ∀ fl, uploadPaths (storeUploads s req.files) fl = uploadPaths s fl := by
      intro fl; unfold storeUploads; cases req.files <;> rfl
    have hold : localImagePaths (storeUploads s req.files) (oldImages (storeUploads s req.files) id)
        = localImagePaths s (oldImages s id) := by
      unfold storeUploads; cases req.files <;> rfl
    rcases updateProduct_removed (storeUploads s req.files) now id req q hq' hn with h | ⟨fl, h1, h2⟩
    · rw [hold] at h
      exact mem_localImagePaths s _ q h
    · rw [hsame] at h2
      exact absurd hq (hfresh fl h1 q h2)
  · intro q hq hn
    exact mem_localImagePaths s _ q (deleteProduct_removed s id q hq hn)

theorem removed_blobs_are_owned_witness :
    (∀ q ∈ demoState.fs.files,
      q ∉ (updateProduct (storeUploads demoState scarfRequest.files) 9 "p1"
        scarfRequest).2.fs.files →
      ∃ img ∈ oldImages demoState "p1", isLocalUpload img = true ∧
        q = pathJoin (pathJoin demoState.dirname "..") img) ∧
    (∀ q ∈ demoState.fs.files, q ∉ (deleteProduct demoState "p1").2.fs.files →
      ∃ img ∈ oldImages demoState "p1", isLocalUpload img = true ∧
        q = pathJoin (pathJoin demoState.dirname "..") img) :=
  removed_blobs_are_owned demoState 9 "p1" scarfRequest (by decide)

/-! ## Product deletion -/

theorem mem_localImagePaths_of (s : State) (images : List String) (img : String)
    (h1 : img ∈ images) (h2 : isLocalUpload img = true) :
    pathJoin (pathJoin s.dirname "..") img ∈ localImagePaths s images := by
  simp only [localImagePaths, List.mem_map, List.mem_filter]
  exact ⟨img, ⟨h1, h2⟩, rfl⟩

/-- C18: the deletion of a stored product during which no `unlinkSync` throws is
answered 200, removes from the catalog that product record and no other
(every other product is kept in place), and leaves in the file system none of
the files its images name through a reference that starts with `/uploads/`. -/
theorem deleteProduct_ok (s : State) (id : ObjectId) (product : Product)
    (hfind : Product.findById s.products id = some product)
    (hdel : (unlinkEach s.fs (localImagePaths s product.images)).2 = false) :
    (deleteProduct s id).1 = ⟨200, .message "Product deleted successfully"⟩ ∧
      (∃ pre post, s.products = pre ++ product :: post ∧ (∀ x ∈ pre, x._id ≠ id) ∧
        (deleteProduct s id).2.products = pre ++ post) ∧
      (∀ img ∈ product.images, isLocalUpload img = true →
        pathJoin (pathJoin s.dirname "..") img ∉ (deleteProduct s id).2.fs.files) := by
  obtain ⟨pre, post, hsplit, hpre⟩ := findById_split id s.products product hfind
  have hid := findById_id s.products id product hfind
  have hfiles := unlinkEach_files_of_ok _ s.fs hdel
  refine ⟨by simp [deleteProduct, hfind, hdel], ⟨pre, post, hsplit, hpre, ?_⟩, ?_⟩
  · have : (deleteProduct s id).2.products = removeFirst id s.products := by
      simp [deleteProduct, hfind, hdel]
    rw [this, hsplit]
    exact removeFirst_split id product pre post hid hpre
  · intro img h1 h2
    have hmem := mem_localImagePaths_of s product.images img h1 h2
    have : (deleteProduct s id).2.fs.files
        = s.fs.files.filter (fun q => !(localImagePaths s product.images).contains q) := by
      simp [deleteProduct, hfind, hdel, hfiles]
    rw [this]
    intro hin
    have := (List.mem_filter.mp hin).2
    simp [hmem] at this

theorem deleteProduct_ok_witness :
    (deleteProduct demoState "p1").1 = ⟨200, .message "Product deleted successfully"⟩ ∧
      (∃ pre post, demoState.products = pre ++
          { _id := "p1", name := "Silk Wrap Dress", category := "Evening Luxe", price := 128,
            description := "A dress", rating := 0, reviews := 0,
            images := ["/uploads/images-1-1.png", "https://cdn.example/a.png"],
            createdAt := 1, updatedAt := 1 } :: post ∧
        (∀ x ∈ pre, x._id ≠ "p1") ∧
        (deleteProduct demoState "p1").2.products = pre ++ post) ∧
      (∀ img ∈ ["/uploads/images-1-1.png", "https://cdn.example/a.png"],
        isLocalUpload img = true →
        pathJoin (pathJoin demoState.dirname "..") img ∉ (deleteProduct demoState "p1").2.fs.files) :=
  deleteProduct_ok demoState "p1"
    { _id := "p1", name := "Silk Wrap Dress", category := "Evening Luxe", price := 128,
      description := "A dress", rating := 0, reviews := 0,
      images := ["/uploads/images-1-1.png", "https://cdn.example/a.png"],
      createdAt := 1, updatedAt := 1 }
    (by decide) (by decide)

theorem findById_removeFirst (id : ObjectId) :
    ∀ products : List Product, (products.map (fun p => p._id)).Nodup →
      Product.findById (removeFirst id products) id = none := by
  intro products
  induction products with
  | nil => intro _; rfl
  | cons a ps ih =>
    intro h
    have hnd := List.nodup_cons.mp h
    by_cases ha : a._id = id
    · have hnot : ∀ x ∈ ps, x._id ≠ id := by
        intro x hx hxid
        exact hnd.1 (List.mem_map.mpr ⟨x, hx, hxid.trans ha.symm⟩)
      simp only [removeFirst, ha, if_true, Product.findById]
      apply List.find?_eq_none.mpr
      intro x hx
      simpa using hnot x hx
    · have := ih hnd.2
      simp only [Product.findById] at this
      simp [removeFirst, ha, Product.findById, this]

theorem deleteProduct_unknown (s : State) (id : ObjectId)
    (h : Product.findById s.products id = none) :
    deleteProduct s id = (⟨404, .message "Product not found"⟩, s) := by
  simp [deleteProduct, h]

theorem deleteProduct_twice (s : State) (id : ObjectId)
    (hnd : (s.products.map (fun p => p._id)).Nodup) :
    deleteProduct (deleteProduct s id).2 id
      = (⟨404, .message "Product not found"⟩, (deleteProduct s id).2) := by
  apply deleteProduct_unknown
  cases hfind : Product.findById s.products id with
  | none => rw [deleteProduct_unknown s id hfind]; exact hfind
  | some product =>
    have : (deleteProduct s id).2.products = removeFirst id s.products := by
      unfold deleteProduct
      simp only [hfind]
      split <;> rfl
    rw [this]
    exact findById_removeFirst id s.products hnd

/-- C20 (fails as stated): in `lockedState` the product `p1` is stored and the
blob of its local image cannot be removed; its deletion is answered 500, not
with success, and the record is gone from the catalog. -/
theorem deleteProduct_unlink_throws :
    (Product.findById lockedState.products "p1").isSome = true ∧
      (deleteProduct lockedState "p1").1 = ⟨500, .error .unlink⟩ ∧
      (deleteProduct lockedState "p1").1.status ≠ 200 ∧
      Product.findById (deleteProduct lockedState "p1").2.products "p1" = none := by
  decide

theorem unlinkEach_throw_split (ps : List Path) :
    ∀ fs : FileSystem, (unlinkEach fs ps).2 = true →
      ∃ (done : List Path) (failing : Path) (rest : List Path),
        ps = done ++ failing :: rest ∧ failing ∈ fs.locked ∧
        failing ∈ (unlinkEach fs ps).1.files ∧
        (unlinkEach fs ps).1.files = fs.files.filter (fun q => !done.contains q) := by
  induction ps with
  | nil => intro fs h; simp [unlinkEach] at h
  | cons p ps ih =>
    intro fs h
    cases he : fs.existsSync p with
    | false =>
      rw [unlinkEach_absent fs p ps he] at h ⊢
      obtain ⟨done, failing, rest, h1, h2, h3, h4⟩ := ih fs h
      refine ⟨p :: done, failing, rest, by rw [h1]; rfl, h2, h3, ?_⟩
      rw [h4]
      apply List.filter_congr
      intro q hq
      have hne : q ≠ p := by
        rintro rfl
        have : fs.existsSync q = true := by simpa [FileSystem.existsSync] using hq
        simp [he] at this
      simp [hne]
    | true =>
      cases hl : fs.locked.contains p with
      | true =>
        rw [unlinkEach_throw fs p ps he hl]
        refine ⟨[], p, ps, rfl, by simpa using hl, by simpa [FileSystem.existsSync] using he, ?_⟩
        simp
      | false =>
        rw [unlinkEach_remove fs p ps he hl] at h ⊢
        obtain ⟨done, failing, rest, h1, h2, h3, h4⟩ := ih (fs.remove p) h
        refine ⟨p :: done, failing, rest, by rw [h1]; rfl, h2, h3, ?_⟩
        rw [h4]
        simp only [FileSystem.remove, List.filter_filter]
        apply List.filter_congr
        intro q _
        by_cases hq : q = p <;> simp [hq]

/-- C20 (amended): when, during the deletion of a stored product, an
`unlinkSync` on one of its local images throws, the cleanup ends there: the
blobs of the local images listed before the failing one are gone, the failing
blob and every other file are still in place.  The handler answers 500 with
the error; the product record has been removed from the catalog and stays
removed, every other product being kept in place. -/
theorem deleteProduct_escalates (s : State) (id : ObjectId) (product : Product)
    (hfind : Product.findById s.products id = some product)
    (hthrow : (unlinkEach s.fs (localImagePaths s product.images)).2 = true) :
    (deleteProduct s id).1 = ⟨500, .error .unlink⟩ ∧
      (∃ pre post, s.products = pre ++ product :: post ∧ (∀ x ∈ pre, x._id ≠ id) ∧
        (deleteProduct s id).2.products = pre ++ post) ∧
      (∃ (done : List Path) (failing : Path) (rest : List Path),
        localImagePaths s product.images = done ++ failing :: rest ∧
        failing ∈ s.fs.locked ∧
        failing ∈ (deleteProduct s id).2.fs.files ∧
        (deleteProduct s id).2.fs.files = s.fs.files.filter (fun q => !done.contains q)) := by
  obtain ⟨pre, post, hsplit, hpre⟩ := findById_split id s.products product hfind
  have hid := findById_id s.products id product hfind
  have hfs : (deleteProduct s id).2.fs = (unlinkEach s.fs (localImagePaths s product.images)).1 := by
    simp [deleteProduct, hfind, hthrow]
  refine ⟨by simp [deleteProduct, hfind, hthrow], ⟨pre, post, hsplit, hpre, ?_⟩, ?_⟩
  · have : (deleteProduct s id).2.products = removeFirst id s.products := by
      simp [deleteProduct, hfind, hthrow]
    rw [this, hsplit]
    exact removeFirst_split id product pre post hid hpre
  · rw [hfs]
    exact unlinkEach_throw_split _ s.fs hthrow

theorem deleteProduct_escalates_witness :
    (deleteProduct midLockedState "p1").1 = ⟨500, .error .unlink⟩ ∧
      (∃ pre post, midLockedState.products = pre ++
          { _id := "p1", name := "Silk Wrap Dress", category := "Evening Luxe", price := 128,
            description := "A dress", rating := 0, reviews := 0,
            images := ["/uploads/a.png", "/uploads/b.png", "/uploads/c.png"],
            createdAt := 1, updatedAt := 1 } :: post ∧
        (∀ x ∈ pre, x._id ≠ "p1") ∧
        (deleteProduct midLockedState "p1").2.products = pre ++ post) ∧
      (∃ (done : List Path) (failing : Path) (rest : List Path),
        localImagePaths midLockedState ["/uploads/a.png", "/uploads/b.png", "/uploads/c.png"]
          = done ++ failing :: rest ∧
        failing ∈ midLockedState.fs.locked ∧
        failing ∈ (deleteProduct midLockedState "p1").2.fs.files ∧
        (deleteProduct midLockedState "p1").2.fs.files
          = midLockedState.fs.files.filter (fun q => !done.contains q)) :=
  deleteProduct_escalates midLockedState "p1"
    { _id := "p1", name := "Silk Wrap Dress", category := "Evening Luxe", price := 128,
      description := "A dress", rating := 0, reviews := 0,
      images := ["/uploads/a.png", "/uploads/b.png", "/uploads/c.png"],
      createdAt := 1, updatedAt := 1 }
    (by decide) (by decide)

/-! ## Rollback and orphaned blobs -/

/-- C21 (fails on the code): a create and an update whose write is rejected by
the validators (category outside the enum), each with one uploaded file whose
`unlinkSync` throws, get no reply at all: the exception leaves the `catch`
block before the line that would report the validation error. -/
theorem rollback_throw_suppresses_reply :
    createErrors scarfRequest.body ["/uploads/images-9-9.png"] = ["category"] ∧
      createProduct lockedUploadState "p3" 9 scarfRequest = (none, lockedUploadState) ∧
      updateErrors (updateDataOf bogusUpdateRequest) = ["category"] ∧
      (updateProduct lockedUploadState 9 "p2" bogusUpdateRequest).1 = none ∧
      (updateProduct lockedUploadState 9 "p2" bogusUpdateRequest).1
        ≠ some ⟨400, .error (.validation ["category"])⟩ := by
  decide

/-- C22 (fails on the code): in `demoState` no blob is orphaned; an update of
the unknown id `p9` that carries one upload is answered 404 and leaves the
uploaded blob, which no product references, in the upload directory. -/
theorem update_unknown_id_orphans_upload :
    noOrphans demoState ∧
      (updateProduct (storeUploads demoState uploadOnlyRequest.files) 9 "p9"
        uploadOnlyRequest).1 = some ⟨404, .message "Product not found"⟩ ∧
      ¬ noOrphans (updateProduct (storeUploads demoState uploadOnlyRequest.files) 9 "p9"
        uploadOnlyRequest).2 := by
  unfold noOrphans
  decide

/-! ## Validation -/

theorem snapshot_mem (products : List Product) :
    ∀ (lines : List LineRequest) (snaps : List OrderItem),
      lines.map (snapshot products) = snaps.map some →
      ∀ l ∈ lines, ∃ i ∈ snaps, i.quantity = l.quantity := by
  intro lines snaps h l hl
  have hmem : snapshot products l ∈ snaps.map some := by
    rw [← h]; exact List.mem_map_of_mem _ hl
  obtain ⟨i, hi, hsome⟩ := List.mem_map.mp hmem
  refine ⟨i, hi, ?_⟩
  unfold snapshot at hsome
  cases hr : resolve products l with
  | none => simp [hr] at hsome
  | some p =>
    simp only [hr, Option.map_some', Option.some.injEq] at hsome
    rw [hsome]

/-- C23: under the Order schema of the data model (quantity at least 1), an
order request with a line whose quantity is missing or below 1 is answered
400 and the state is unchanged, so no order is persisted; when every line
resolves, the reply is the validation error of `save()`. -/
theorem createOrder_bad_quantity (s : State) (newId : ObjectId) (now : Nat)
    (body : OrderBody) (lines : List LineRequest)
    (hitems : body.items = some lines)
    (hbad : ∃ l ∈ lines, ∀ q, l.quantity = some q → q < 1) :
    (createOrder specOrderSchema s newId now body).2 = s ∧
      (createOrder specOrderSchema s newId now body).1.status = 400 ∧
      ((∀ l ∈ lines, (resolve s.products l).isSome = true) →
        (createOrder specOrderSchema s newId now body).1
          = ⟨400, .error (.validation ["order"])⟩) := by
  have hall : (∀ l ∈ lines, (resolve s.products l).isSome = true) →
      createOrder specOrderSchema s newId now body
        = (⟨400, .error (.validation ["order"])⟩, s) := by
    intro hres
    obtain ⟨snaps, hs, hc⟩ := collectItems_resolved s.products lines [] (some 0) hres
    obtain ⟨l, hl, hq⟩ := hbad
    obtain ⟨i, hi, hiq⟩ := snapshot_mem s.products lines snaps hs l hl
    have hitem : (match i.quantity with
        | some q => decide (1 ≤ q)
        | none => false) = false := by
      rw [hiq]
      cases hlq : l.quantity with
      | none => rfl
      | some q =>
        have := hq q hlq
        simp only [decide_eq_false_iff_not, not_le]
        exact this
    have hval : specOrderSchema.validate
        (newOrder specOrderSchema newId now body ([] ++ snaps)
          (lines.foldl (fun t l => jsAdd t (jsMul (priceOf s.products l) l.quantity)) (some 0)))
        = false := by
      have hany : (snaps.all (fun i => match i.quantity with
          | some q => decide (1 ≤ q)
          | none => false)) = false := by
        rw [List.all_eq_false]
        exact ⟨i, hi, by simp [hitem]⟩
      simp [specOrderSchema, newOrder, hany]
    simp only [createOrder, hitems, hc, hval]
    rfl
  by_cases hres : ∀ l ∈ lines, (resolve s.products l).isSome = true
  · rw [hall hres]
    exact ⟨rfl, rfl, fun _ => rfl⟩
  · have hmiss : ∃ l ∈ lines, resolve s.products l = none := by
      push_neg at hres
      obtain ⟨l, hl, hn⟩ := hres
      exact ⟨l, hl, by simpa using hn⟩
    obtain ⟨l, _, _, hc⟩ := collectItems_unresolved s.products lines [] (some 0) hmiss
    have : createOrder specOrderSchema s newId now body
        = (⟨400, .message ("Product " ++ l.productId ++ " not found")⟩, s) := by
      simp only [createOrder, hitems, hc]
    rw [this]
    exact ⟨rfl, rfl, fun h => absurd h hres⟩

theorem createOrder_bad_quantity_witness :
    (createOrder specOrderSchema demoState "o3" 9
        { demoBody with items := some [{ productId := "p1", quantity := some 2 },
          { productId := "p2", quantity := some 0 }] }).2 = demoState ∧
      (createOrder specOrderSchema demoState "o3" 9
        { demoBody with items := some [{ productId := "p1", quantity := some 2 },
          { productId := "p2", quantity := some 0 }] }).1.status = 400 ∧
      ((∀ l ∈ [({ productId := "p1", quantity := some 2 } : LineRequest),
          { productId := "p2", quantity := some 0 }],
          (resolve demoState.products l).isSome = true) →
        (createOrder specOrderSchema demoState "o3" 9
          { demoBody with items := some [{ productId := "p1", quantity := some 2 },
            { productId := "p2", quantity := some 0 }] }).1
          = ⟨400, .error (.validation ["order"])⟩) :=
  createOrder_bad_quantity demoState "o3" 9 _ _ rfl
    ⟨{ productId := "p2", quantity := some 0 }, by simp, by
      intro q hq
      have : q = 0 := by simpa using hq.symm
      rw [this]; norm_num⟩

theorem cleanupAndFail_reply (s : State) (files : Option (List UploadedFile)) (e : Failure)
    (hunlocked : ∀ fl, files = some fl → ∀ p ∈ uploadPaths s fl, p ∉ s.fs.locked) :
    (cleanupAndFail s files e).1 = some ⟨400, .error e⟩ := by
  cases files with
  | none => rfl
  | some fl =>
    have h := unlinkEach_ok_of_unlocked (uploadPaths s fl) s.fs (hunlocked fl rfl)
    simp [cleanupAndFail, h]

theorem createErrors_ne_nil (body : ProductBody) (imageUrls : List String)
    (hbad : (∀ c ∈ categories, body.category ≠ some c) ∨
      (∀ q, body.price = some (some q) → q < 0) ∨
      (∀ v, body.name = some v → v = "") ∨
      (∀ v, body.description = some v → v = "")) :
    createErrors body imageUrls ≠ [] := by
  have htrim : jsTrim "" = "" := by decide
  rcases hbad with h | h | h | h
  · have : categoryValid body.category = false := by
      cases hc : body.category with
      | none => rfl
      | some c =>
        have hn : c ∉ categories := fun hm => h c hm hc
        simpa [categoryValid] using hn
    simp [createErrors, this]
  · have : priceValid body.price.join = false := by
      cases hp : body.price with
      | none => rfl
      | some v =>
        cases v with
        | none => rfl
        | some q =>
          have hq := h q hp
          show decide (0 ≤ q) = false
          simpa using hq
    have hne : (if priceValid body.price.join = true then ([] : List String) else ["price"])
        = ["price"] := by rw [this]; rfl
    unfold createErrors
    rw [hne]
    simp
  · have : nameValid body.name = false := by
      cases hn : body.name with
      | none => rfl
      | some v => rw [h v hn]; simp [nameValid, htrim]
    simp [createErrors, this]
  · have : descriptionValid body.description = false := by
      cases hn : body.description with
      | none => rfl
      | some v => rw [h v hn]; simp [descriptionValid, htrim]
    simp [createErrors, this]

theorem createProduct_rejects (s : State) (newId : ObjectId) (now : Nat)
    (req : ProductRequest)
    (hbad : (∀ c ∈ categories, req.body.category ≠ some c) ∨
      (∀ q, req.body.price = some (some q) → q < 0) ∨
      (∀ v, req.body.name = some v → v = "") ∨
      (∀ v, req.body.description = some v → v = "")) :
    (createProduct s newId now req).2.products = s.products ∧
      ((∀ fl, req.files = some fl → ∀ p ∈ uploadPaths s fl, p ∉ s.fs.locked) →
        (createProduct s newId now req).1
            = some ⟨400, .message "At least one image is required"⟩ ∨
          ∃ paths, paths ≠ [] ∧
            (createProduct s newId now req).1 = some ⟨400, .error (.validation paths)⟩) := by
  unfold createProduct
  cases himg : createImageUrls req with
  | none => exact ⟨rfl, fun _ => Or.inl rfl⟩
  | some imageUrls =>
    have hne := createErrors_ne_nil req.body imageUrls hbad
    have hemp : (createErrors req.body imageUrls).isEmpty = false := by
      cases h : createErrors req.body imageUrls with
      | nil => exact absurd h hne
      | cons a t => rfl
    simp only [hemp]
    refine ⟨cleanupAndFail_products _ _ _, fun hun => Or.inr ⟨_, hne, ?_⟩⟩
    exact cleanupAndFail_reply s req.files _ hun

theorem readBody_fields (raw : RawProductBody) (body : ProductBody)
    (h : readBody raw = some body) :
    body.name = raw.name ∧ body.category = raw.category ∧
      body.description = raw.description ∧ body.images = raw.images ∧
      (raw.price = none → body.price = none) ∧
      (∀ text, raw.price = some text →
        (parseFloat text = .nan ∧ body.price = some none) ∨
        (∃ q, parseFloat text = .finite q ∧ body.price = some (some q))) := by
  unfold readBody at h
  cases hp : raw.price with
  | none =>
    simp only [hp, Option.some.injEq] at h
    subst h
    exact ⟨rfl, rfl, rfl, rfl, fun _ => rfl, fun t ht => by simp at ht⟩
  | some text =>
    simp only [hp] at h
    cases hf : parseFloat text with
    | nan =>
      simp only [hf, Option.some.injEq] at h
      subst h
      refine ⟨rfl, rfl, rfl, rfl, fun hn => by simp at hn, ?_⟩
      intro t ht
      have : t = text := (Option.some.inj ht).symm
      subst this
      exact Or.inl ⟨hf, rfl⟩
    | finite q =>
      simp only [hf, Option.some.injEq] at h
      subst h
      refine ⟨rfl, rfl, rfl, rfl, fun hn => by simp at hn, ?_⟩
      intro t ht
      have : t = text := (Option.some.inj ht).symm
      subst this
      exact Or.inr ⟨q, hf, rfl⟩
    | infinity n => simp [hf] at h

/-- C24 (fails as stated): a create request with valid fields whose price text
is `12.50abc`, which is not numeric, is answered 201 and stores a product
priced 12.5, `parseFloat` reading the leading `12.50`; and a create request
with a category outside the enum whose uploaded file cannot be removed gets no
reply at all. -/
theorem createProduct_lenient_price :
    (∃ (body : ProductBody) (p : Product),
      readBody lenientPriceBody = some body ∧
      createProduct demoState "p3" 9 ⟨none, body⟩
        = (some ⟨201, .product p⟩, { demoState with products := demoState.products ++ [p] }) ∧
      p.price = 25 / 2) ∧
    createProduct lockedUploadState "p3" 9 scarfRequest = (none, lockedUploadState) := by
  refine ⟨⟨{ name := some "Linen Shirt", category := some "Wardrobe Staples",
             price := some (some (25 / 2)), description := some "A shirt",
             images := some (.one "https://cdn.example/c.png") },
           { _id := "p3", name := "Linen Shirt", category := "Wardrobe Staples", price := 25 / 2,
             description := "A shirt", rating := 0, reviews := 0,
             images := ["https://cdn.example/c.png"], createdAt := 9, updatedAt := 9 },
           ?_, ?_, rfl⟩, ?_⟩
  · decide!
  · decide!
  · decide

/-- C24 (amended): a create request whose category is not one of the five
labels, whose price text `parseFloat` reads as `NaN` or as a negative number
(a missing price included; a text with a numeric head such as `12.50abc` is
read as that number), or whose name or description is empty or missing, leaves
the catalog unchanged and, when the removal of its uploads does not throw, is
answered 400 with a message and no product. -/
theorem createProduct_invalid_draft (s : State) (newId : ObjectId) (now : Nat)
    (files : Option (List UploadedFile)) (raw : RawProductBody) (body : ProductBody)
    (hread : readBody raw = some body)
    (hbad : (∀ c ∈ categories, raw.category ≠ some c) ∨
      (∀ text, raw.price = some text →
        parseFloat text = .nan ∨ ∃ q, parseFloat text = .finite q ∧ q < 0) ∨
      (∀ v, raw.name = some v → v = "") ∨
      (∀ v, raw.description = some v → v = "")) :
    (createProduct s newId now ⟨files, body⟩).2.products = s.products ∧
      ((∀ fl, files = some fl → ∀ p ∈ uploadPaths s fl, p ∉ s.fs.locked) →
        (createProduct s newId now ⟨files, body⟩).1
            = some ⟨400, .message "At least one image is required"⟩ ∨
          ∃ paths, paths ≠ [] ∧
            (createProduct s newId now ⟨files, body⟩).1
              = some ⟨400, .error (.validation paths)⟩) := by
  obtain ⟨hn, hc, hd, _, hp0, hp1⟩ := readBody_fields raw body hread
  apply createProduct_rejects s newId now ⟨files, body⟩
  rcases hbad with h | h | h | h
  · exact Or.inl (by simpa [hc] using h)
  · refine Or.inr (Or.inl ?_)
    intro q hq
    have hq' : body.price = some (some q) := hq
    cases hrp : raw.price with
    | none => rw [hp0 hrp] at hq'; simp at hq'
    | some text =>
      rcases hp1 text hrp with ⟨_, hb⟩ | ⟨q', hf, hb⟩
      · rw [hb] at hq'; simp at hq'
      · rw [hb] at hq'
        have hqq : q' = q := by simpa using hq'
        rcases h text hrp with hnan | ⟨q'', hf', hneg⟩
        · rw [hf] at hnan; simp at hnan
        · rw [hf] at hf'
          have : q' = q'' := by simpa using hf'
          rw [← hqq, this]; exact hneg
  · exact Or.inr (Or.inr (Or.inl (by simpa [hn] using h)))
  · exact Or.inr (Or.inr (Or.inr (by simpa [hd] using h)))

theorem createProduct_invalid_draft_witness :
    (createProduct (storeUploads demoState (some [⟨"images-9-9.png"⟩])) "p3" 9
        ⟨some [⟨"images-9-9.png"⟩],
          { name := some "Scarf", category := some "Streetwear", price := some (some (-5)),
            description := some "A scarf", images := none }⟩).2.products
        = demoState.products ∧
      ((∀ fl, some [(⟨"images-9-9.png"⟩ : UploadedFile)] = some fl →
          ∀ p ∈ uploadPaths (storeUploads demoState (some [⟨"images-9-9.png"⟩])) fl,
            p ∉ (storeUploads demoState (some [⟨"images-9-9.png"⟩])).fs.locked) →
        (createProduct (storeUploads demoState (some [⟨"images-9-9.png"⟩])) "p3" 9
            ⟨some [⟨"images-9-9.png"⟩],
              { name := some "Scarf", category := some "Streetwear", price := some (some (-5)),
                description := some "A scarf", images := none }⟩).1
            = some ⟨400, .message "At least one image is required"⟩ ∨
          ∃ paths, paths ≠ [] ∧
            (createProduct (storeUploads demoState (some [⟨"images-9-9.png"⟩])) "p3" 9
              ⟨some [⟨"images-9-9.png"⟩],
                { name := some "Scarf", category := some "Streetwear", price := some (some (-5)),
                  description := some "A scarf", images := none }⟩).1
              = some ⟨400, .error (.validation paths)⟩) :=
  createProduct_invalid_draft (storeUploads demoState (some [⟨"images-9-9.png"⟩])) "p3" 9
    (some [⟨"images-9-9.png"⟩])
    { name := some "Scarf", category := some "Streetwear", price := some "-5 euros",
      description := some "A scarf", images := none }
    { name := some "Scarf", category := some "Streetwear", price := some (some (-5)),
      description := some "A scarf", images := none }
    (by decide!)
    (Or.inr (Or.inl (by
      intro text ht
      have : text = "-5 euros" := (Option.some.inj ht).symm
      subst this
      exact Or.inr ⟨-5, by decide!, by norm_num⟩)))

theorem cleanupAndFail_cases (s : State) (files : Option (List UploadedFile)) (e : Failure) :
    (cleanupAndFail s files e).1 = none ∨ (cleanupAndFail s files e).1 = some ⟨400, .error e⟩ := by
  unfold cleanupAndFail
  cases files with
  | none => exact Or.inr rfl
  | some fl =>
    dsimp only
    split
    · exact Or.inl rfl
    · exact Or.inr rfl

theorem updateProduct_unknown (s : State) (now : Nat) (id : ObjectId) (req : ProductRequest)
    (hfind : Product.findById s.products id = none) :
    updateProduct s now id req =
      if updateErrors (updateDataOf req) = [] then
        (some ⟨404, .message "Product not found"⟩, s)
      else cleanupAndFail s req.files (.validation (updateErrors (updateDataOf req))) := by
  have hw : writeUpdate s now id req =
      if updateErrors (updateDataOf req) = [] then
        (some ⟨404, .message "Product not found"⟩, s)
      else cleanupAndFail s req.files (.validation (updateErrors (updateDataOf req))) := by
    unfold writeUpdate
    dsimp only
    cases herr : updateErrors (updateDataOf req) with
    | nil => simp [hfind]
    | cons a t => simp
  have hold : unlinkEach s.fs (localImagePaths s (oldImages s id)) = (s.fs, false) := by
    simp [oldImages, hfind, localImagePaths, unlinkEach]
  unfold updateProduct
  cases hf : req.files with
  | none => simpa [hf] using hw
  | some fl =>
    rw [hf] at hw
    simp only [hold, Bool.false_eq_true, if_false]
    exact hw

/-! ## Generated file names -/

theorem toDigitsCore_digits : ∀ (fuel n : Nat) (acc : List Char), n < fuel → 0 < n →
    Nat.toDigitsCore 10 fuel n acc = ((Nat.digits 10 n).reverse.map Nat.digitChar) ++ acc := by
  intro fuel
  induction fuel with
  | zero => intro n acc h; omega
  | succ fuel ih =>
    intro n acc hlt hpos
    rw [Nat.digits_def' (by norm_num) hpos]
    unfold Nat.toDigitsCore
    by_cases h0 : n / 10 = 0
    · simp [h0]
    · have hlt' : n / 10 < fuel := by omega
      have hpos' : 0 < n / 10 := Nat.pos_of_ne_zero h0
      simp only [h0, if_false]
      rw [ih (n / 10) _ hlt' hpos']
      simp

theorem decimal_pos (n : Nat) (h : 0 < n) :
    decimal n = (Nat.digits 10 n).reverse.map Nat.digitChar := by
  unfold decimal Nat.toDigits
  rw [toDigitsCore_digits (n + 1) n [] (by omega) h]
  simp

theorem decimal_zero : decimal 0 = ['0'] := by decide

theorem digitChar_injOn : ∀ a, a < 10 → ∀ b, b < 10 →
    Nat.digitChar a = Nat.digitChar b → a = b := by decide

theorem digitChar_ne_dash : ∀ d, d < 10 → Nat.digitChar d ≠ '-' := by decide

theorem map_digitChar_inj : ∀ l₁ l₂ : List Nat, (∀ d ∈ l₁, d < 10) → (∀ d ∈ l₂, d < 10) →
    l₁.map Nat.digitChar = l₂.map Nat.digitChar → l₁ = l₂ := by
  intro l₁
  induction l₁ with
  | nil =>
    intro l₂ _ _ h
    cases l₂ with
    | nil => rfl
    | cons b t => simp at h
  | cons a t ih =>
    intro l₂ h₁ h₂ h
    cases l₂ with
    | nil => simp at h
    | cons b u =>
      simp only [List.map_cons, List.cons.injEq] at h
      have hab := digitChar_injOn a (h₁ a (List.mem_cons_self _ _)) b
        (h₂ b (List.mem_cons_self _ _)) h.1
      have htu := ih u (fun d hd => h₁ d (List.mem_cons_of_mem _ hd))
        (fun d hd => h₂ d (List.mem_cons_of_mem _ hd)) h.2
      rw [hab, htu]

theorem decimal_injective (n m : Nat) (h : decimal n = decimal m) : n = m := by
  have hlt : ∀ k : Nat, ∀ d ∈ (Nat.digits 10 k).reverse, d < 10 := by
    intro k d hd
    exact Nat.digits_lt_base (by norm_num) (List.mem_reverse.mp hd)
  have key : ∀ a b : Nat, 0 < b → decimal a = decimal b → a = 0 → False := by
    intro a b hb hab ha
    subst ha
    rw [decimal_zero, decimal_pos b hb] at hab
    have h1 : (Nat.digits 10 b).reverse = [0] := by
      apply map_digitChar_inj _ _ (hlt b) (by simp)
      rw [← hab]; rfl
    have h2 : Nat.digits 10 b = [0] := by
      have := congrArg List.reverse h1
      simpa using this
    have h3 := Nat.getLast_digit_ne_zero 10 (Nat.pos_iff_ne_zero.mp hb)
    simp [h2] at h3
  rcases Nat.eq_zero_or_pos n with hn | hn
  · rcases Nat.eq_zero_or_pos m with hm | hm
    · rw [hn, hm]
    · exact absurd hn (fun h0 => key n m hm h h0)
  · rcases Nat.eq_zero_or_pos m with hm | hm
    · exact absurd hm (fun h0 => key m n hn h.symm h0)
    · rw [decimal_pos n hn, decimal_pos m hm] at h
      have h1 := map_digitChar_inj _ _ (hlt n) (hlt m) h
      have h2 : Nat.digits 10 n = Nat.digits 10 m := by
        have := congrArg List.reverse h1
        simpa using this
      exact Nat.digits.injective 10 h2

theorem digitChar_ne_dot : ∀ d, d < 10 → Nat.digitChar d ≠ '.' := by decide

theorem digitChar_ne_slash : ∀ d, d < 10 → Nat.digitChar d ≠ '/' := by decide

theorem decimal_avoids (c : Char) (hc : ∀ d, d < 10 → Nat.digitChar d ≠ c) (n : Nat) :
    c ∉ decimal n := by
  rcases Nat.eq_zero_or_pos n with hn | hn
  · rw [hn, decimal_zero]
    intro hmem
    have : c = '0' := by simpa using hmem
    exact hc 0 (by norm_num) this.symm
  · rw [decimal_pos n hn]
    intro hmem
    obtain ⟨d, hd, hdc⟩ := List.mem_map.mp hmem
    exact hc d (Nat.digits_lt_base (by norm_num) (List.mem_reverse.mp hd)) hdc

theorem split_at_char (c : Char) : ∀ (a a' b b' : List Char), c ∉ a → c ∉ a' →
    a ++ c :: b = a' ++ c :: b' → a = a' ∧ b = b' := by
  intro a
  induction a with
  | nil =>
    intro a' b b' _ ha' h
    cases a' with
    | nil => simpa using h
    | cons x t =>
      simp only [List.nil_append, List.cons_append, List.cons.injEq] at h
      exact absurd (by rw [← h.1]; exact List.mem_cons_self _ _) ha'
  | cons x t ih =>
    intro a' b b' ha ha' h
    cases a' with
    | nil =>
      simp only [List.nil_append, List.cons_append, List.cons.injEq] at h
      exact absurd (by rw [h.1]; exact List.mem_cons_self _ _) ha
    | cons y u =>
      simp only [List.cons_append, List.cons.injEq] at h
      obtain ⟨h1, h2⟩ := ih u b b' (fun hm => ha (List.mem_cons_of_mem _ hm))
        (fun hm => ha' (List.mem_cons_of_mem _ hm)) h.2
      exact ⟨by rw [h.1, h1], h2⟩

theorem extname_shape (name : String) :
    (extname name).data = [] ∨ ∃ t, (extname name).data = '.' :: t := by
  unfold extname
  dsimp only
  split
  · exact Or.inl rfl
  · split
    · exact Or.inl rfl
    · split
      · exact Or.inl rfl
      · exact Or.inr ⟨_, rfl⟩

theorem digits_then_extension (d₁ d₂ e₁ e₂ : List Char)
    (h₁ : '.' ∉ d₁) (h₂ : '.' ∉ d₂)
    (he₁ : e₁ = [] ∨ ∃ t, e₁ = '.' :: t) (he₂ : e₂ = [] ∨ ∃ t, e₂ = '.' :: t)
    (h : d₁ ++ e₁ = d₂ ++ e₂) : d₁ = d₂ ∧ e₁ = e₂ := by
  rcases he₁ with rfl | ⟨t₁, rfl⟩
  · rcases he₂ with rfl | ⟨t₂, rfl⟩
    · simpa using h
    · rw [List.append_nil] at h
      exact absurd (by rw [h]; simp) h₁
  · rcases he₂ with rfl | ⟨t₂, rfl⟩
    · rw [List.append_nil] at h
      exact absurd (by rw [← h]; simp) h₂
    · obtain ⟨ha, hb⟩ := split_at_char '.' d₁ d₂ t₁ t₂ h₁ h₂ h
      exact ⟨ha, by rw [hb]⟩

theorem filename_data (f : IncomingFile) (now draw : Nat) :
    (filename f now draw).data
      = f.fieldname.data ++ ('-' :: (decimal now ++ '-' :: (decimal draw ++
          (extname f.originalname).data))) := by
  simp [filename, uniqueSuffix, String.data_append]

theorem splitSlash_no_slash : ∀ (cs : List Char), ∀ seg ∈ splitSlash cs, '/' ∉ seg := by
  intro cs
  induction cs with
  | nil => intro seg h; simp [splitSlash] at h; subst h; simp
  | cons c cs ih =>
    intro seg h
    unfold splitSlash at h
    by_cases hc : c = '/'
    · simp only [hc, if_true, List.mem_cons] at h
      rcases h with rfl | h
      · simp
      · exact ih seg h
    · simp only [hc, if_false] at h
      cases hs : splitSlash cs with
      | nil =>
        simp only [hs, List.mem_singleton] at h
        subst h
        intro hm
        have : '/' = c := by simpa using hm
        exact hc this.symm
      | cons seg' rest =>
        simp only [hs, List.mem_cons] at h
        rcases h with rfl | h
        · intro hm
          rcases List.mem_cons.mp hm with hm | hm
          · exact hc hm.symm
          · exact ih seg' (by rw [hs]; exact List.mem_cons_self _ _) hm
        · exact ih seg (by rw [hs]; exact List.mem_cons_of_mem _ h)

theorem splitSlash_of_no_slash : ∀ (cs : List Char), '/' ∉ cs → splitSlash cs = [cs] := by
  intro cs
  induction cs with
  | nil => intro _; rfl
  | cons c cs ih =>
    intro h
    have hc : c ≠ '/' := fun hc => h (by rw [hc]; exact List.mem_cons_self _ _)
    have hcs := ih (fun hm => h (List.mem_cons_of_mem _ hm))
    simp [splitSlash, hc, hcs]

theorem extname_no_slash (name : String) : '/' ∉ (extname name).data := by
  unfold extname
  dsimp only
  have hbase : '/' ∉ ((splitSlash name.data).filter (fun seg => seg ≠ [])).getLastD [] := by
    have hmem := List.getLastD_mem_cons
      ((splitSlash name.data).filter (fun seg => seg ≠ [])) []
    rcases List.mem_cons.mp hmem with h | h
    · rw [h]; simp
    · exact splitSlash_no_slash name.data _ (List.mem_filter.mp h).1
  split
  · simp
  · split
    · simp
    · split
      · simp
      · intro hm
        rcases List.mem_cons.mp hm with hm | hm
        · exact absurd hm (by decide)
        · have h1 := List.mem_reverse.mp hm
          have h2 := (List.takeWhile_sublist _).subset h1
          exact hbase (List.mem_reverse.mp h2)

theorem pathJoin_plain (base : Path) (name : String)
    (hslash : '/' ∉ name.data) (hdash : '-' ∈ name.data) :
    pathJoin base name = base ++ [name] := by
  have h1 : name ≠ "" := by
    rintro rfl
    simp at hdash
  have h2 : name ≠ "." := by
    rintro rfl
    exact absurd hdash (by decide)
  have h3 : name ≠ ".." := by
    rintro rfl
    exact absurd hdash (by decide)
  unfold pathJoin
  rw [splitSlash_of_no_slash name.data hslash]
  simp [normStep, h1, h2, h3]

/-- C26 (fails as stated): two uploads of different files under the same field
at the same clock reading and with the same random draw get the same file
name, so that both are written to the same path of the upload directory and
the later one replaces the earlier. -/
theorem filename_collision :
    (⟨"images", "a.png", "image/png", 3⟩ : IncomingFile) ≠ ⟨"images", "b.png", "image/png", 9⟩ ∧
      filename ⟨"images", "a.png", "image/png", 3⟩ 1700000000000 123456789
        = filename ⟨"images", "b.png", "image/png", 9⟩ 1700000000000 123456789 ∧
      pathJoin (uploadDir demoState)
          (filename ⟨"images", "a.png", "image/png", 3⟩ 1700000000000 123456789)
        = pathJoin (uploadDir demoState)
          (filename ⟨"images", "b.png", "image/png", 9⟩ 1700000000000 123456789) := by
  decide

/-- C26 (amended): two uploads under the same field name get different file
names whenever their clock readings, their random draws or the extensions of
their original names differ; when the field name holds no `/` (as `images`,
the field of the routes), the two files are then written to different paths,
so that neither replaces the other. -/
theorem filename_distinct (f₁ f₂ : IncomingFile) (now₁ now₂ draw₁ draw₂ : Nat)
    (hfield : f₁.fieldname = f₂.fieldname)
    (hne : now₁ ≠ now₂ ∨ draw₁ ≠ draw₂ ∨
      extname f₁.originalname ≠ extname f₂.originalname) :
    filename f₁ now₁ draw₁ ≠ filename f₂ now₂ draw₂ ∧
      ('/' ∉ f₁.fieldname.data → ∀ s : State,
        pathJoin (uploadDir s) (filename f₁ now₁ draw₁)
          ≠ pathJoin (uploadDir s) (filename f₂ now₂ draw₂)) := by
  have hname : filename f₁ now₁ draw₁ ≠ filename f₂ now₂ draw₂ := by
    intro h
    have hd := congrArg String.data h
    rw [filename_data, filename_data, hfield] at hd
    have h1 := List.append_cancel_left hd
    simp only [List.cons.injEq, true_and] at h1
    obtain ⟨hn, h2⟩ := split_at_char '-' _ _ _ _
      (decimal_avoids '-' digitChar_ne_dash now₁) (decimal_avoids '-' digitChar_ne_dash now₂) h1
    obtain ⟨hr, he⟩ := digits_then_extension _ _ _ _
      (decimal_avoids '.' digitChar_ne_dot draw₁) (decimal_avoids '.' digitChar_ne_dot draw₂)
      (extname_shape f₁.originalname) (extname_shape f₂.originalname) h2
    rcases hne with hne | hne | hne
    · exact hne (decimal_injective _ _ hn)
    · exact hne (decimal_injective _ _ hr)
    · exact hne (by
        have := congrArg String.mk he
        simpa using this)
  refine ⟨hname, fun hslash s => ?_⟩
  have hplain : ∀ (f : IncomingFile) (now draw : Nat), '/' ∉ f.fieldname.data →
      pathJoin (uploadDir s) (filename f now draw) = uploadDir s ++ [filename f now draw] := by
    intro f now draw hf
    apply pathJoin_plain
    · rw [filename_data]
      intro hm
      rcases List.mem_append.mp hm with hm | hm
      · exact hf hm
      · rcases List.mem_cons.mp hm with hm | hm
        · exact absurd hm (by decide)
        · rcases List.mem_append.mp hm with hm | hm
          · exact decimal_avoids '/' digitChar_ne_slash now hm
          · rcases List.mem_cons.mp hm with hm | hm
            · exact absurd hm (by decide)
            · rcases List.mem_append.mp hm with hm | hm
              · exact decimal_avoids '/' digitChar_ne_slash draw hm
              · exact extname_no_slash _ hm
    · rw [filename_data]
      simp
  rw [hplain f₁ now₁ draw₁ hslash, hplain f₂ now₂ draw₂ (by rw [← hfield]; exact hslash)]
  intro h
  have := List.append_cancel_left h
  exact hname (by simpa using this)

theorem filename_distinct_witness :
    filename ⟨"images", "a.png", "image/png", 3⟩ 1700000000000 123456789
        ≠ filename ⟨"images", "b.jpg", "image/jpeg", 9⟩ 1700000000000 123456789 ∧
      ('/' ∉ "images".data → ∀ s : State,
        pathJoin (uploadDir s)
            (filename ⟨"images", "a.png", "image/png", 3⟩ 1700000000000 123456789)
          ≠ pathJoin (uploadDir s)
            (filename ⟨"images", "b.jpg", "image/jpeg", 9⟩ 1700000000000 123456789)) :=
  filename_distinct ⟨"images", "a.png", "image/png", 3⟩ ⟨"images", "b.jpg", "image/jpeg", 9⟩
    1700000000000 1700000000000 123456789 123456789 rfl (Or.inr (Or.inr (by decide)))

/-! ## Upload filter and size limit -/

/-- C27: the upload middleware accepts a file exactly when its declared content
type begins with `image/` and its size is at most 10 * 1024 * 1024 bytes: such
a file is written to the upload directory under its generated name, and any
other file is refused with an error and leaves the state, file system
included, unchanged. -/
theorem storeFile_accepts_iff (s : State) (file : IncomingFile) (now draw : Nat) :
    (("image/".data <+: file.mimetype.data ∧ file.size ≤ 10 * 1024 * 1024) →
      (storeFile s file now draw).1 = .ok ⟨filename file now draw⟩ ∧
      pathJoin (uploadDir s) (filename file now draw) ∈ (storeFile s file now draw).2.fs.files) ∧
    ((¬ "image/".data <+: file.mimetype.data ∨ 10 * 1024 * 1024 < file.size) →
      ∃ msg, storeFile s file now draw = (.error msg, s)) := by
  have hpre : fileFilter file = true ↔ "image/".data <+: file.mimetype.data := by
    unfold fileFilter
    exact List.isPrefixOf_iff_prefix
  constructor
  · rintro ⟨h1, h2⟩
    have hf : fileFilter file = true := hpre.mpr h1
    have hs : file.size ≤ fileSizeLimit := h2
    simp [storeFile, hf, hs]
  · rintro (h | h)
    · have hf : fileFilter file = false := by
        cases hc : fileFilter file with
        | false => rfl
        | true => exact absurd (hpre.mp hc) h
      exact ⟨"Only image files are allowed!", by simp [storeFile, hf]⟩
    · have hs : ¬ file.size ≤ fileSizeLimit := by
        unfold fileSizeLimit; omega
      cases hc : fileFilter file with
      | false => exact ⟨"Only image files are allowed!", by simp [storeFile, hc]⟩
      | true => exact ⟨"File too large", by simp [storeFile, hc, hs]⟩

theorem storeFile_accepts_iff_witness :
    ((storeFile demoState ⟨"images", "a.png", "image/png", 10485760⟩ 5 7).1
        = .ok ⟨filename ⟨"images", "a.png", "image/png", 10485760⟩ 5 7⟩ ∧
      pathJoin (uploadDir demoState) (filename ⟨"images", "a.png", "image/png", 10485760⟩ 5 7)
        ∈ (storeFile demoState ⟨"images", "a.png", "image/png", 10485760⟩ 5 7).2.fs.files) ∧
    (∃ msg, storeFile demoState ⟨"images", "a.png", "image/png", 10485761⟩ 5 7
      = (.error msg, demoState)) ∧
    (∃ msg, storeFile demoState ⟨"images", "a.pdf", "application/pdf", 10⟩ 5 7
      = (.error msg, demoState)) :=
  ⟨(storeFile_accepts_iff demoState ⟨"images", "a.png", "image/png", 10485760⟩ 5 7).1
      ⟨by decide, by decide⟩,
    (storeFile_accepts_iff demoState ⟨"images", "a.png", "image/png", 10485761⟩ 5 7).2
      (Or.inr (by decide)),
    (storeFile_accepts_iff demoState ⟨"images", "a.pdf", "application/pdf", 10⟩ 5 7).2
      (Or.inl (by decide))⟩

/-! ## Admin login -/

/-- C28: with the admin email, the admin password and the signing key
configured, the login route issues a token exactly when the presented email is
the configured email and the presented password is the configured password,
and answers 401 "Invalid credentials" otherwise; an issued token carries the
presented email and expires 24 hours (86400 seconds) after its time of issue. -/
theorem login_spec (env : Env) (now : Nat) (email password : JsValue) (e p k : String)
    (he : env.ADMIN_EMAIL = some e) (hp : env.ADMIN_PASSWORD = some p)
    (hk : env.JWT_SECRET = some k) (hk0 : k ≠ "") :
    ((∃ t, login env now email password = .token t) ↔
        (email = .string e ∧ password = .string p)) ∧
      (¬ (email = .string e ∧ password = .string p) →
        login env now email password = .unauthorized "Invalid credentials") ∧
      (∀ t, login env now email password = .token t →
        t.email = email ∧ t.role = "admin" ∧ t.iat = now / 1000 ∧ t.exp = t.iat + 86400) := by
  have heq : ∀ (v : JsValue) (x : String), strictEq v (some x) = true ↔ v = .string x := by
    intro v x
    cases v <;> simp [strictEq]
  have hcond : (strictEq email env.ADMIN_EMAIL && strictEq password env.ADMIN_PASSWORD) = true ↔
      (email = .string e ∧ password = .string p) := by
    rw [he, hp, Bool.and_eq_true, heq, heq]
  by_cases hc : email = .string e ∧ password = .string p
  · have hb := hcond.mpr hc
    have hl : login env now email password
        = .token { email := email, role := "admin", iat := now / 1000,
                   exp := now / 1000 + 24 * 60 * 60, key := k } := by
      simp [login, hb, hk, hk0]
    refine ⟨⟨fun _ => hc, fun _ => ⟨_, hl⟩⟩, fun hn => absurd hc hn, ?_⟩
    intro t ht
    rw [hl] at ht
    cases ht
    exact ⟨rfl, rfl, rfl, rfl⟩
  · have hb : (strictEq email env.ADMIN_EMAIL && strictEq password env.ADMIN_PASSWORD)
        = false := by
      cases hx : (strictEq email env.ADMIN_EMAIL && strictEq password env.ADMIN_PASSWORD) with
      | false => rfl
      | true => exact absurd (hcond.mp hx) hc
    have hl : login env now email password = .unauthorized "Invalid credentials" := by
      simp [login, hb]
    refine ⟨⟨?_, fun h => absurd h hc⟩, fun _ => hl, ?_⟩
    · rintro ⟨t, ht⟩
      rw [hl] at ht
      cases ht
    · intro t ht
      rw [hl] at ht
      cases ht

theorem login_spec_witness :
    ((∃ t, login demoEnv 1700000000000 (.string "admin@aura.test") (.string "s3cret") = .token t) ↔
        (JsValue.string "admin@aura.test" = .string "admin@aura.test" ∧
          JsValue.string "s3cret" = .string "s3cret")) ∧
      (¬ (JsValue.string "admin@aura.test" = .string "admin@aura.test" ∧
          JsValue.string "s3cret" = .string "s3cret") →
        login demoEnv 1700000000000 (.string "admin@aura.test") (.string "s3cret")
          = .unauthorized "Invalid credentials") ∧
      (∀ t, login demoEnv 1700000000000 (.string "admin@aura.test") (.string "s3cret") = .token t →
        t.email = .string "admin@aura.test" ∧ t.role = "admin" ∧
          t.iat = 1700000000000 / 1000 ∧ t.exp = t.iat + 86400) :=
  login_spec demoEnv 1700000000000 (.string "admin@aura.test") (.string "s3cret")
    "admin@aura.test" "s3cret" "key" rfl rfl rfl (by decide)

/-! ## Client-supplied fields and paths -/

theorem createOrder_created (schema : OrderSchema) (s s' : State) (newId : ObjectId)
    (now : Nat) (body : OrderBody) (o : Order)
    (h : createOrder schema s newId now body = (⟨201, .order o⟩, s')) :
    ∃ lines items total, body.items = some lines ∧
      collectItems s.products lines [] (some 0) = .ok (items, total) ∧
      o.items = items ∧ o.total = total ∧ s'.orders = s.orders ++ [o] := by
  unfold createOrder at h
  cases hi : body.items with
  | none => simp [hi] at h
  | some lines =>
    simp only [hi] at h
    cases hc : collectItems s.products lines [] (some 0) with
    | error pid => simp [hc] at h
    | ok r =>
      obtain ⟨items, total⟩ := r
      simp only [hc] at h
      split at h
      · simp only [Prod.mk.injEq, Response.mk.injEq, Payload.order.injEq, true_and] at h
        obtain ⟨ho, hs⟩ := h
        refine ⟨lines, items, total, rfl, hc, ?_, ?_, ?_⟩
        · rw [← ho]; rfl
        · rw [← ho]; rfl
        · rw [← hs, ← ho]
      · simp at h

/-- C29: two order requests run against the same catalog that carry the same
lines persist orders with the same total and the same items, whatever else
the bodies hold (a `total` of the client, a status, customer fields) and
whatever the ids and the times of creation. -/
theorem createOrder_ignores_client_total (schema : OrderSchema) (s s₁ s₂ : State)
    (id₁ id₂ : ObjectId) (now₁ now₂ : Nat) (body₁ body₂ : OrderBody) (o₁ o₂ : Order)
    (hlines : body₁.items = body₂.items)
    (h₁ : createOrder schema s id₁ now₁ body₁ = (⟨201, .order o₁⟩, s₁))
    (h₂ : createOrder schema s id₂ now₂ body₂ = (⟨201, .order o₂⟩, s₂)) :
    o₁.total = o₂.total ∧ o₁.items = o₂.items ∧
      s₁.orders = s.orders ++ [o₁] ∧ s₂.orders = s.orders ++ [o₂] := by
  obtain ⟨l₁, i₁, t₁, hb₁, hc₁, hi₁, ht₁, hs₁⟩ := createOrder_created schema s s₁ id₁ now₁ body₁ o₁ h₁
  obtain ⟨l₂, i₂, t₂, hb₂, hc₂, hi₂, ht₂, hs₂⟩ := createOrder_created schema s s₂ id₂ now₂ body₂ o₂ h₂
  have hl : l₁ = l₂ := by
    rw [hlines, hb₂] at hb₁
    exact (Option.some.inj hb₁).symm
  subst hl
  rw [hc₁] at hc₂
  have hpair : (i₁, t₁) = (i₂, t₂) := Except.ok.inj hc₂
  have hi : i₁ = i₂ := congrArg Prod.fst hpair
  have ht : t₁ = t₂ := congrArg Prod.snd hpair
  exact ⟨by rw [ht₁, ht₂, ht], by rw [hi₁, hi₂, hi], hs₁, hs₂⟩

theorem createOrder_ignores_client_total_witness :
    createOrder specOrderSchema demoState "o3" 9 demoBody
        = (⟨201, .order demoOrder⟩, { demoState with orders := demoState.orders ++ [demoOrder] }) ∧
      createOrder specOrderSchema demoState "o4" 10 tamperedBody
        = (⟨201, .order tamperedOrder⟩,
            { demoState with orders := demoState.orders ++ [tamperedOrder] }) ∧
      demoOrder.total = tamperedOrder.total ∧ demoOrder.items = tamperedOrder.items :=
  have h₁ : createOrder specOrderSchema demoState "o3" 9 demoBody
      = (⟨201, .order demoOrder⟩, { demoState with orders := demoState.orders ++ [demoOrder] }) := by
    simp [createOrder, collectItems, Product.findById, demoState, demoBody, newOrder,
      specOrderSchema, validStatuses, jsAdd, jsMul, demoOrder]
    decide!
  have h₂ : createOrder specOrderSchema demoState "o4" 10 tamperedBody
      = (⟨201, .order tamperedOrder⟩,
          { demoState with orders := demoState.orders ++ [tamperedOrder] }) := by
    simp [createOrder, collectItems, Product.findById, demoState, demoBody, newOrder,
      specOrderSchema, validStatuses, jsAdd, jsMul, tamperedOrder, tamperedBody]
    decide!
  have h := createOrder_ignores_client_total specOrderSchema demoState _ _ "o3" "o4" 9 10
    demoBody tamperedBody demoOrder tamperedOrder rfl h₁ h₂
  ⟨h₁, h₂, h.1, h.2.1⟩

/-- C30 (fails on the code): a product created with the image reference
`/uploads/../server.js` is stored as it is, and its deletion removes the file
`server.js` of the backend, which lies outside the upload directory; an
update of that product that carries an upload removes it as well. -/
theorem delete_escapes_upload_directory :
    (createProduct traversalState "p3" 9 traversalRequest).1.map (fun r => r.status) = some 201 ∧
      uploadDir traversalState = ["app", "uploads"] ∧
      ¬ (uploadDir traversalState <+: ["app", "server.js"]) ∧
      ["app", "server.js"] ∈ (createProduct traversalState "p3" 9 traversalRequest).2.fs.files ∧
      (deleteProduct (createProduct traversalState "p3" 9 traversalRequest).2 "p3").1.status = 200 ∧
      ["app", "server.js"] ∉
        (deleteProduct (createProduct traversalState "p3" 9 traversalRequest).2 "p3").2.fs.files ∧
      (updateProduct (storeUploads (createProduct traversalState "p3" 9 traversalRequest).2
          uploadOnlyRequest.files) 10 "p3" uploadOnlyRequest).1.map (fun r => r.status)
        = some 200 ∧
      ["app", "server.js"] ∉
        (updateProduct (storeUploads (createProduct traversalState "p3" 9 traversalRequest).2
          uploadOnlyRequest.files) 10 "p3" uploadOnlyRequest).2.fs.files := by
  decide

/-! ## Ids that name nothing -/

/-- C8 (fails as stated): no order is stored under `o9`, which is not a
well-formed id; a status update addressed to it with a valid status is
answered 400 with the cast error, not 404. -/
theorem updateStatusRoute_malformed :
    castObjectId "o9" = none ∧
      (∀ o ∈ demoState.orders, o._id ≠ "o9") ∧
      updateStatusRoute demoState "o9" (.string "shipped")
        = (⟨400, .error .cast⟩, demoState) ∧
      (updateStatusRoute demoState "o9" (.string "shipped")).1.status ≠ 404 := by
  decide

/-- C8 (amended): for every request id that names no stored order and every one
of the five statuses, the status route leaves the state, stored orders
included, unchanged; it answers 404 "Order not found" when the id is a
well-formed ObjectId, and 400 with the cast error when it is not. -/
theorem updateStatusRoute_unknown (s : State) (rawId : String) (st : String)
    (hst : st ∈ validStatuses)
    (hunknown : ∀ id, castObjectId rawId = some id → Order.findById s.orders id = none) :
    (updateStatusRoute s rawId (.string st)).2 = s ∧
      ((castObjectId rawId).isSome = true →
        (updateStatusRoute s rawId (.string st)).1 = ⟨404, .message "Order not found"⟩) ∧
      (castObjectId rawId = none →
        (updateStatusRoute s rawId (.string st)).1 = ⟨400, .error .cast⟩) := by
  have hinc := includes_of_mem st hst
  cases hc : castObjectId rawId with
  | none =>
    have : updateStatusRoute s rawId (.string st) = (⟨400, .error .cast⟩, s) := by
      simp [updateStatusRoute, hinc, hc]
    rw [this]
    exact ⟨rfl, fun h => by simp at h, fun _ => rfl⟩
  | some id =>
    have : updateStatusRoute s rawId (.string st)
        = (⟨404, .message "Order not found"⟩, s) := by
      simp only [updateStatusRoute, hinc, hc, Bool.not_true, Bool.false_eq_true, if_false]
      exact updateStatus_unknown s id st (hunknown id hc) hst
    rw [this]
    exact ⟨rfl, fun _ => rfl, fun h => by simp at h⟩

theorem updateStatusRoute_unknown_witness :
    (updateStatusRoute demoState unknownId (.string "shipped")).2 = demoState ∧
      ((castObjectId unknownId).isSome = true →
        (updateStatusRoute demoState unknownId (.string "shipped")).1
          = ⟨404, .message "Order not found"⟩) ∧
      (castObjectId unknownId = none →
        (updateStatusRoute demoState unknownId (.string "shipped")).1 = ⟨400, .error .cast⟩) :=
  updateStatusRoute_unknown demoState unknownId "shipped" (by decide) (by decide)

/-- C19 (fails as stated): no product is stored under `p9`, which is not a
well-formed id; its deletion is answered 500 with the cast error, not 404. -/
theorem deleteProductRoute_malformed :
    castObjectId "p9" = none ∧
      (∀ p ∈ demoState.products, p._id ≠ "p9") ∧
      deleteProductRoute demoState "p9" = (⟨500, .error .cast⟩, demoState) ∧
      (deleteProductRoute demoState "p9").1.status ≠ 404 := by
  decide

/-- C19 (amended): the deletion of a request id that names no product leaves the
state, catalog and files included, as it was; it is answered 404 "Product not
found" when the id is a well-formed ObjectId, and 500 with the cast error when
it is not.  In particular, with ids that are unique in the collection,
deleting a well-formed id a second time is answered 404 and changes nothing. -/
theorem deleteProductRoute_unknown :
    (∀ (s : State) (rawId : String),
      (∀ id, castObjectId rawId = some id → Product.findById s.products id = none) →
      (deleteProductRoute s rawId).2 = s ∧
        ((castObjectId rawId).isSome = true →
          (deleteProductRoute s rawId).1 = ⟨404, .message "Product not found"⟩) ∧
        (castObjectId rawId = none →
          (deleteProductRoute s rawId).1 = ⟨500, .error .cast⟩)) ∧
    (∀ (s : State) (rawId : String), (castObjectId rawId).isSome = true →
      (s.products.map (fun p => p._id)).Nodup →
      deleteProductRoute (deleteProductRoute s rawId).2 rawId
        = (⟨404, .message "Product not found"⟩, (deleteProductRoute s rawId).2)) := by
  constructor
  · intro s rawId hunknown
    cases hc : castObjectId rawId with
    | none =>
      have : deleteProductRoute s rawId = (⟨500, .error .cast⟩, s) := by
        simp [deleteProductRoute, hc]
      rw [this]
      exact ⟨rfl, fun h => by simp at h, fun _ => rfl⟩
    | some id =>
      have : deleteProductRoute s rawId = (⟨404, .message "Product not found"⟩, s) := by
        simp only [deleteProductRoute, hc]
        exact deleteProduct_unknown s id (hunknown id hc)
      rw [this]
      exact ⟨rfl, fun _ => rfl, fun h => by simp at h⟩
  · intro s rawId hsome hnd
    obtain ⟨id, hc⟩ := Option.isSome_iff_exists.mp hsome
    simp only [deleteProductRoute, hc]
    exact deleteProduct_twice s id hnd

theorem deleteProductRoute_unknown_witness :
    ((deleteProductRoute hexState unknownId).2 = hexState ∧
        ((castObjectId unknownId).isSome = true →
          (deleteProductRoute hexState unknownId).1 = ⟨404, .message "Product not found"⟩) ∧
        (castObjectId unknownId = none →
          (deleteProductRoute hexState unknownId).1 = ⟨500, .error .cast⟩)) ∧
      (deleteProductRoute hexState "64B7F1A2C3D4E5F601234501").1.status = 200 ∧
      deleteProductRoute (deleteProductRoute hexState "64B7F1A2C3D4E5F601234501").2
          "64B7F1A2C3D4E5F601234501"
        = (⟨404, .message "Product not found"⟩,
            (deleteProductRoute hexState "64B7F1A2C3D4E5F601234501").2) :=
  ⟨deleteProductRoute_unknown.1 hexState unknownId (by decide),
    by decide,
    deleteProductRoute_unknown.2 hexState "64B7F1A2C3D4E5F601234501" (by decide) (by decide)⟩

/-- C25 (fails as stated): an update of a well-formed id that names no product
is answered 400 with the validation error when its category is outside the
enum, the validators running before the lookup; an update of the malformed id
`p9` with no field is answered 400 with the cast error; and an update of the
unknown id whose category is outside the enum and whose uploaded file cannot be
removed gets no reply.  None is answered 404. -/
theorem updateProductRoute_unknown_not_404 :
    castObjectId unknownId = some unknownId ∧
      Product.findById demoState.products unknownId = none ∧
      updateProductRoute demoState 9 unknownId
          ⟨none, { emptyBody with category := some "Bogus" }⟩
        = (some ⟨400, .error (.validation ["category"])⟩, demoState) ∧
      castObjectId "p9" = none ∧
      updateProductRoute demoState 9 "p9" ⟨none, emptyBody⟩
        = (some ⟨400, .error .cast⟩, demoState) ∧
      (updateProductRoute lockedUploadState 9 unknownId bogusUpdateRequest).1 = none := by
  decide

/-- C25 (amended): an update of a request id that names no product leaves the
catalog unchanged.  It is answered 404 "Product not found" when the id is a
well-formed ObjectId and every supplied field passes the validators.  When the
id is malformed or a supplied field is rejected, it is not answered 404: the
reply is 400 when the removal of its uploads does not throw. -/
theorem updateProductRoute_unknown (s : State) (now : Nat) (rawId : String)
    (req : ProductRequest)
    (hunknown : ∀ id, castObjectId rawId = some id → Product.findById s.products id = none) :
    (updateProductRoute s now rawId req).2.products = s.products ∧
      ((castObjectId rawId).isSome = true → updateErrors (updateDataOf req) = [] →
        (updateProductRoute s now rawId req).1 = some ⟨404, .message "Product not found"⟩) ∧
      ((castObjectId rawId = none ∨ updateErrors (updateDataOf req) ≠ []) →
        (updateProductRoute s now rawId req).1.map (fun r => r.status) ≠ some 404 ∧
        ((∀ fl, req.files = some fl → ∀ p ∈ uploadPaths s fl, p ∉ s.fs.locked) →
          (updateProductRoute s now rawId req).1.map (fun r => r.status) = some 400)) := by
  have hfail : ∀ e : Failure,
      (cleanupAndFail s req.files e).1.map (fun r => r.status) ≠ some 404 ∧
      ((∀ fl, req.files = some fl → ∀ p ∈ uploadPaths s fl, p ∉ s.fs.locked) →
        (cleanupAndFail s req.files e).1.map (fun r => r.status) = some 400) := by
    intro e
    constructor
    · rcases cleanupAndFail_cases s req.files e with h | h <;> rw [h] <;> simp
    · intro hun
      rw [cleanupAndFail_reply s req.files e hun]
      rfl
  cases hc : castObjectId rawId with
  | none =>
    have hrun : updateProductRoute s now rawId req = cleanupAndFail s req.files .cast := by
      simp [updateProductRoute, hc]
    rw [hrun]
    exact ⟨cleanupAndFail_products _ _ _, fun h => by simp at h, fun _ => hfail .cast⟩
  | some id =>
    have hrun : updateProductRoute s now rawId req = updateProduct s now id req := by
      simp [updateProductRoute, hc]
    rw [hrun, updateProduct_unknown s now id req (hunknown id hc)]
    by_cases herr : updateErrors (updateDataOf req) = []
    · rw [if_pos herr]
      refine ⟨rfl, fun _ _ => rfl, fun h => ?_⟩
      rcases h with h | h
      · simp at h
      · exact absurd herr h
    · rw [if_neg herr]
      exact ⟨cleanupAndFail_products _ _ _, fun _ h => absurd h herr, fun _ => hfail _⟩

theorem updateProductRoute_unknown_witness :
    (updateProductRoute (storeUploads demoState uploadOnlyRequest.files) 9 unknownId
        uploadOnlyRequest).2.products = demoState.products ∧
      (updateProductRoute (storeUploads demoState uploadOnlyRequest.files) 9 unknownId
        uploadOnlyRequest).1 = some ⟨404, .message "Product not found"⟩ ∧
      (updateProductRoute (storeUploads demoState bogusUpdateRequest.files) 9 unknownId
        bogusUpdateRequest).1.map (fun r => r.status) = some 400 :=
  ⟨(updateProductRoute_unknown (storeUploads demoState uploadOnlyRequest.files) 9 unknownId
      uploadOnlyRequest (by decide)).1,
    (updateProductRoute_unknown (storeUploads demoState uploadOnlyRequest.files) 9 unknownId
      uploadOnlyRequest (by decide)).2.1 (by decide) (by decide),
    ((updateProductRoute_unknown (storeUploads demoState bogusUpdateRequest.files) 9 unknownId
      bogusUpdateRequest (by decide)).2.2 (Or.inr (by decide))).2 (by decide)⟩

end Aura
